import Mathlib

/-!
Verification development for the kyobobook-plugin extraction pipeline.

The TypeScript sources are shallowly embedded: pure string utilities become
Lean functions on `List Char` / `String`, the regex literals of the source are
translated into explicit scanner functions with the same matching semantics
(leftmost match, greedy quantifiers; all the patterns involved have follow
sets disjoint from their quantified character classes, so greedy scanning
coincides with backtracking), DOM-dependent code is embedded as functions
over "document view" structures whose fields hold the results of the
individual CSS-selector queries the source performs, and stateful components
(HTTP retry loop, LRU cache, orchestration service) become explicit
state-passing functions with the wall clock passed as a parameter.

JavaScript `number` values are modelled as `ℚ` (for `parseFloat`/ratings and
the cache's eviction score) and `Nat`/`Int` (for `parseInt` results); JS
string truthiness (`""` is falsy) is modelled explicitly at each use site.
-/

set_option maxRecDepth 4096

namespace Kyobo

/-- Whitespace class of JavaScript regex `\s` and of `String.prototype.trim`
(the characters that occur in practice; the full JS class also contains more
exotic Unicode spaces, none of which appear in the modelled inputs). -/
def isJsSpace (c : Char) : Bool :=
  c = ' ' || c = '\t' || c = '\n' || c = '\r' || c = '\x0b' || c = '\x0c' ||
  c = ' ' || c = '﻿'

/-- Decimal digit test, JS regex `\d`. -/
def isDigitCh (c : Char) : Bool := '0' ≤ c && c ≤ '9'

/-- JS word character (`\w`), used for the `\b` boundary test. -/
def isWordCh (c : Char) : Bool :=
  ('a' ≤ c && c ≤ 'z') || ('A' ≤ c && c ≤ 'Z') || isDigitCh c || c = '_'

/-- ASCII lower-casing as performed by the case-insensitive (`i`) regex flag
on the ASCII letters appearing in the source's patterns. -/
def lowerCh (c : Char) : Char :=
  if 'A' ≤ c && c ≤ 'Z' then Char.ofNat (c.toNat + 32) else c

/-- Numeric value of a list of decimal digits (the effect of `parseInt(_,10)`
on an all-digit capture group). -/
def natOfDigits (ds : List Char) : Nat :=
  ds.foldl (fun n c => n * 10 + (c.toNat - 48)) 0

/-- A scanner consumes a prefix of the input matching one regex pattern and
returns the rest; `none` means the pattern does not match at this position. -/
abbrev Scan := List Char → Option (List Char)

/-- Match a single character satisfying a predicate. -/
def scanCharP (p : Char → Bool) : Scan := fun l =>
  match l with
  | c :: rest => if p c then some rest else none
  | [] => none

/-- Match a literal character. -/
def scanCh (c : Char) : Scan := scanCharP (fun x => x = c)

/-- Match a literal character case-insensitively (ASCII). -/
def scanChCI (c : Char) : Scan := scanCharP (fun x => lowerCh x = lowerCh c)

/-- Match a literal string. -/
def scanLit : List Char → Scan
  | [], l => some l
  | c :: cs, l =>
    match scanCh c l with
    | some r => scanLit cs r
    | none => none

/-- Match a literal string case-insensitively (ASCII). -/
def scanLitCI : List Char → Scan
  | [], l => some l
  | c :: cs, l =>
    match scanChCI c l with
    | some r => scanLitCI cs r
    | none => none

/-- Greedy `\s*`: always succeeds. -/
def scanWs : Scan := fun l => some (l.dropWhile isJsSpace)

/-- Greedy `p*`: always succeeds. -/
def scanManyP (p : Char → Bool) : Scan := fun l => some (l.dropWhile p)

/-- Greedy `p+`. -/
def scanMany1P (p : Char → Bool) : Scan := fun l =>
  match l with
  | c :: rest => if p c then some (rest.dropWhile p) else none
  | [] => none

/-- Optional pattern `m?`: greedy, falls back to consuming nothing. -/
def scanOpt (m : Scan) : Scan := fun l =>
  match m l with
  | some r => some r
  | none => some l

/-- Sequencing of two patterns. -/
def scanSeq (a b : Scan) : Scan := fun l =>
  match a l with
  | some r => b r
  | none => none

/-- Ordered alternation of patterns (first match wins, as in regex `|`). -/
def scanAlt (a b : Scan) : Scan := fun l =>
  match a l with
  | some r => some r
  | none => b l

/-- Test whether an anchored pattern matches at the start of the input
(`regex.test` with a `^...` pattern). -/
def scanTest (m : Scan) (l : List Char) : Bool := (m l).isSome

/-- Global regex replacement `text.replace(pat, rep)` with flag `g`: scan left
to right, emit the replacement at each match and continue after it (the
replacement itself is not rescanned), copy unmatched characters.  All the
source's global patterns consume at least one character when they match; the
guard below only serves the termination argument. -/
def replaceScanGo (m : Scan) (rep : List Char) : Nat → List Char → List Char
  | _, [] => []
  | 0, l => l
  | Nat.succ fuel, c :: rest =>
    match m (c :: rest) with
    | some rem =>
      if rem.length < rest.length + 1 then rep ++ replaceScanGo m rep fuel rem
      else c :: replaceScanGo m rep fuel rest
    | none => c :: replaceScanGo m rep fuel rest

/-- Entry point of the global replacement: the fuel `l.length` is exactly the
number of steps the scan can take, since every step consumes at least one
input character. -/
def replaceScan (m : Scan) (rep : List Char) (l : List Char) : List Char :=
  replaceScanGo m rep l.length l

/-- Leftmost search: the position-wise scan performed by `text.match(pat)` for
an unanchored pattern, returning the extraction `f` applied at the first
position where the pattern matches. -/
def searchFirst {α : Type} (matchAt : List Char → Option α) (l : List Char) : Option α :=
  match matchAt l with
  | some a => some a
  | none =>
    match l with
    | [] => none
    | _ :: rest => searchFirst matchAt rest

/-- Prefix test on character lists. -/
def listPrefixOf : List Char → List Char → Bool
  | [], _ => true
  | _ :: _, [] => false
  | p :: ps, c :: cs => p = c && listPrefixOf ps cs

/-- Contiguous-sublist test on character lists. -/
def listInfixOf (pat : List Char) (l : List Char) : Bool :=
  match l with
  | [] => listPrefixOf pat []
  | _ :: rest => listPrefixOf pat l || listInfixOf pat rest

/-- Substring containment, JS `String.prototype.includes`. -/
def strIncludes (s pat : String) : Bool := listInfixOf pat.data s.data

/-- JS `String.prototype.trim` (same whitespace class as `\s`). -/
def jsTrim (s : String) : String :=
  String.mk (((s.data.dropWhile isJsSpace).reverse.dropWhile isJsSpace).reverse)

/-- JS `String.prototype.startsWith`. -/
def jsStartsWith (s pat : String) : Bool := listPrefixOf pat.data s.data

/-- JS `text.split(sep)` for a single-character separator. -/
def splitOnChar (c : Char) (s : String) : List String :=
  (s.data.splitOn c).map String.mk

/-- Length of a string as JS sees it.  All characters appearing in the
modelled inputs are in the Basic Multilingual Plane, where the UTF-16 code
unit count used by JS `String.prototype.length` equals the codepoint count. -/
def jsLength (s : String) : Nat := s.data.length

end Kyobo

namespace Kyobo.TextUtils

/-- TextUtils.clean: collapse runs of whitespace to a single space (regex
`\s+` → `' '`; after that no newline remains, so the second replacement
`\n+` → `'\n'` of the source is the identity) and trim. -/
def clean (s : String) : String :=
  jsTrim (String.mk (replaceScan (scanMany1P isJsSpace) [' '] s.data))

/-- Matcher for the leading-bracket pattern `^\[[^\]]*\]\s*` of cleanTitle
(anchored, so applied once at the start). -/
def cleanTitleBracket : Scan :=
  scanSeq (scanCh '[') (scanSeq (scanManyP (fun c => c ≠ ']'))
    (scanSeq (scanCh ']') scanWs))

/-- Matcher for the shipping-info pattern `\([^)]*배송[^)]*\)\s*` (global):
a parenthesized group, closed at the first `)`, whose contents contain
"배송", plus trailing whitespace. -/
def cleanTitleShipping : Scan := fun l =>
  match l with
  | '(' :: rest =>
    let inner := rest.takeWhile (fun c => c ≠ ')')
    let after := rest.dropWhile (fun c => c ≠ ')')
    match after with
    | ')' :: tail =>
      if listInfixOf "배송".data inner then some (tail.dropWhile isJsSpace)
      else none
    | _ => none
  | _ => none

/-- Matcher for `\s*\|\s*교보문고\s*` / `\s*-\s*교보문고\s*` (global). -/
def cleanTitleSuffix (sep : Char) : Scan :=
  scanSeq scanWs (scanSeq (scanCh sep) (scanSeq scanWs
    (scanSeq (scanLit "교보문고".data) scanWs)))

/-- Helper for `^\s*-\s*`: strip a leading hyphen surrounded by whitespace. -/
def stripLeadHyphen (l : List Char) : List Char :=
  match (scanSeq scanWs (scanSeq (scanCh '-') scanWs)) l with
  | some r => r
  | none => l

/-- Helper for `\s*-\s*$`: remove the leftmost suffix of the shape
whitespace* `-` whitespace* that extends to the end of the string. -/
def stripTailHyphen (l : List Char) : List Char :=
  let suffixMatches : List Char → Bool := fun t =>
    match (scanSeq scanWs (scanSeq (scanCh '-') scanWs)) t with
    | some r => r.isEmpty
    | none => false
  let rec go : List Char → Option Nat := fun t =>
    if suffixMatches t then some t.length
    else
      match t with
      | [] => none
      | _ :: rest =>
        match go rest with
        | some n => some n
        | none => none
  match go l with
  | some n => l.take (l.length - n)
  | none => l

/-- TextUtils.cleanTitle: clean, then drop a leading bracketed category tag,
shipping-info parentheticals, "| 교보문고" / "- 교보문고" suffixes and stray
leading/trailing hyphens. -/
def cleanTitle (s : String) : String :=
  if s = "" then ""
  else
    let t := (clean s).data
    let t := match cleanTitleBracket t with
      | some r => r
      | none => t
    let t := replaceScan cleanTitleShipping [] t
    let t := replaceScan (cleanTitleSuffix '|') [] t
    let t := replaceScan (cleanTitleSuffix '-') [] t
    let t := stripLeadHyphen t
    let t := stripTailHyphen t
    jsTrim (String.mk t)

/-- TextUtils.normalizeISBN: keep only digits and `X`/`x` (regex
`[^\dX]` with flag `i` removed), upper-case, and accept only length 10
or 13. -/
def normalizeISBN (isbn : String) : Option String :=
  if isbn = "" then none
  else
    let cleaned := String.mk ((isbn.data.filter
      (fun c => isDigitCh c || c = 'X' || c = 'x')).map
      (fun c => if c = 'x' then 'X' else c))
    if cleaned.data.length = 10 || cleaned.data.length = 13 then some cleaned
    else none

/-- Match `(\d{1,4})` greedily with at most `hi` digits, trying lengths from
`hi` down to 1 (regex backtracking over the bounded repetition), and require
`after` to match what follows.  Returns the captured digits. -/
def scanDigitsUpTo (hi : Nat) (after : Scan) (l : List Char) :
    Option (List Char) :=
  let run := l.takeWhile isDigitCh
  let rec try_ : Nat → Option (List Char) := fun n =>
    match n with
    | 0 => none
    | Nat.succ m =>
      if n ≤ run.length then
        match after (l.drop n) with
        | some _ => some (l.take n)
        | none => try_ m
      else try_ m
  try_ hi

/-- Matcher for `(\d{1,4})\s*페이지` at one position, returning the captured
page count. -/
def pagesPat1 (l : List Char) : Option Nat :=
  (scanDigitsUpTo 4 (scanSeq scanWs (scanLit "페이지".data)) l).map natOfDigits

/-- Matcher for `(\d{1,4})\s*쪽` at one position. -/
def pagesPat2 (l : List Char) : Option Nat :=
  (scanDigitsUpTo 4 (scanSeq scanWs (scanLit "쪽".data)) l).map natOfDigits

/-- Matcher for `쪽수\s*[:\-]?\s*(\d{1,4})\s*쪽?` at one position. -/
def pagesPat3 (l : List Char) : Option Nat :=
  match (scanSeq (scanLit "쪽수".data) (scanSeq scanWs
      (scanSeq (scanOpt (scanAlt (scanCh ':') (scanCh '-'))) scanWs))) l with
  | some r =>
    let ds := r.takeWhile isDigitCh
    if ds.length = 0 then none
    else
      let ds := ds.take 4
      match (scanSeq scanWs (scanOpt (scanLit "쪽".data))) (r.drop ds.length) with
      | some _ => some (natOfDigits ds)
      | none => none
  | none => none

/-- Matcher for `p\.?\s*(\d{1,4})\b` (flag `i`) at one position: the digit
repetition backtracks against the word-boundary test. -/
def pagesPat4 (l : List Char) : Option Nat :=
  match (scanSeq (scanChCI 'p') (scanSeq (scanOpt (scanCh '.')) scanWs)) l with
  | some r =>
    (scanDigitsUpTo 4 (fun t =>
      match t with
      | [] => some []
      | c :: _ => if isWordCh c then none else some t) r).map natOfDigits
  | none => none

/-- Acceptance test of one matched page count: `num > 0 && num < 5000`
(on failure the source moves on to the next pattern). -/
def acceptPages (o : Option Nat) : Option Nat :=
  match o with
  | some num => if 0 < num ∧ num < 5000 then some num else none
  | none => none

/-- TextUtils.extractPages: try the four page-count patterns in order; for
each, take the first (leftmost) match in the text and accept its value only
if it lies strictly between 0 and 5000. -/
def extractPages (text : String) : Option Nat :=
  if text = "" then none
  else
    match acceptPages (searchFirst pagesPat1 text.data) with
    | some n => some n
    | none =>
      match acceptPages (searchFirst pagesPat2 text.data) with
      | some n => some n
      | none =>
        match acceptPages (searchFirst pagesPat3 text.data) with
        | some n => some n
        | none => acceptPages (searchFirst pagesPat4 text.data)

/-- Matcher for the rating pattern `(\d+\.?\d*)\s*점?` at one position,
returning the integer and fractional digits of the captured group.  The
pattern matches wherever a digit stands (everything after `\d+` is optional),
with greedy digit runs on both sides of the optional dot. -/
def ratingPatAt (l : List Char) : Option (List Char × List Char) :=
  match l with
  | c :: _ =>
    if isDigitCh c then
      let intPart := l.takeWhile isDigitCh
      let rest := l.dropWhile isDigitCh
      let frac : List Char :=
        match rest with
        | '.' :: tail => tail.takeWhile isDigitCh
        | _ => []
      some (intPart, frac)
    else none
  | [] => none

/-- Value that JS `parseFloat` assigns to a captured `\d+(\.\d*)?` group. -/
def floatOfParts (p : List Char × List Char) : ℚ :=
  (natOfDigits p.1 : ℚ) + (natOfDigits p.2 : ℚ) / ((10 : ℚ) ^ p.2.length)

/-- TextUtils.extractNumber specialised to the rating pattern: first match of
`(\d+\.?\d*)\s*점?` in the text, parsed as a float. -/
def extractRatingNumber (text : String) : Option ℚ :=
  if text = "" then none
  else (searchFirst ratingPatAt text.data).map floatOfParts

/-- TextUtils.extractRating: a value at most 5 is doubled (5-point scale on a
10-point output), a value at most 10 is kept, anything larger is rejected. -/
def extractRating (text : String) : Option ℚ :=
  match extractRatingNumber text with
  | none => none
  | some rating =>
    if rating ≤ 5 then some (rating * 2)
    else if rating ≤ 10 then some rating
    else none

end Kyobo.TextUtils

namespace Kyobo.HtmlMd

/-- Matcher for an opening tag with attribute junk, `<TAG[^>]*>` (flag `i`). -/
def openTag (tag : String) : Scan :=
  scanSeq (scanCh '<') (scanSeq (scanLitCI tag.data)
    (scanSeq (scanManyP (fun c => c ≠ '>')) (scanCh '>')))

/-- Matcher for a closing tag `<\/TAG>` (flag `i`). -/
def closeTag (tag : String) : Scan :=
  scanSeq (scanLit "</".data) (scanSeq (scanLitCI tag.data) (scanCh '>'))

/-- Matcher for `<br\s*\/?>` (flag `i`). -/
def brTag : Scan :=
  scanSeq (scanCh '<') (scanSeq (scanLitCI "br".data)
    (scanSeq scanWs (scanSeq (scanOpt (scanCh '/')) (scanCh '>'))))

/-- Matcher for a close-open pair `<\/TAG>\s*<TAG[^>]*>` (flag `i`). -/
def closeOpenPair (tag : String) : Scan :=
  scanSeq (closeTag tag) (scanSeq scanWs (openTag tag))

/-- Matcher for `<\/?[uo]l[^>]*>` (flag `i`). -/
def listTag : Scan :=
  scanSeq (scanCh '<') (scanSeq (scanOpt (scanCh '/'))
    (scanSeq (scanCharP (fun c => lowerCh c = 'u' || lowerCh c = 'o'))
      (scanSeq (scanChCI 'l')
        (scanSeq (scanManyP (fun c => c ≠ '>')) (scanCh '>')))))

/-- Matcher for `<[^>]+>`: any remaining tag. -/
def anyTag : Scan :=
  scanSeq (scanCh '<') (scanSeq (scanMany1P (fun c => c ≠ '>')) (scanCh '>'))

/-- Matcher for the triple-newline pattern `\n\s*\n\s*\n` with greedy
whitespace: it matches at a newline whose whitespace run contains at least
three newlines, and the greedy quantifiers extend the match to the last
newline of that run. -/
def tripleNl : Scan := fun l =>
  match l with
  | '\n' :: _ =>
    let run := l.takeWhile isJsSpace
    if 3 ≤ (run.filter (fun c => c = '\n')).length then
      let afterLast := (run.reverse.takeWhile (fun c => c ≠ '\n')).length
      some (l.drop (run.length - afterLast))
    else none
  | _ => none

/-- Replacement for the anchored pattern `^\s*\n+` (strip the leading
whitespace up to and including the last newline of the initial whitespace
run, when that run contains a newline). -/
def stripLeadNl (l : List Char) : List Char :=
  let run := l.takeWhile isJsSpace
  if (run.filter (fun c => c = '\n')).length ≥ 1 then
    let afterLast := (run.reverse.takeWhile (fun c => c ≠ '\n')).length
    l.drop (run.length - afterLast)
  else l

/-- Replacement for the pattern `\n+\s*$`: remove the leftmost suffix that
consists of whitespace only and begins with a newline. -/
def stripTailNl (l : List Char) : List Char :=
  let wsSuffix := l.reverse.takeWhile isJsSpace
  let keptInSuffix := (wsSuffix.takeWhile (fun c => c ≠ '\n')).length
  if keptInSuffix < wsSuffix.length then
    l.take (l.length - wsSuffix.length + keptInSuffix)
  else l

/-- BookDetailParser.convertHtmlToMarkdown: the ordered list of regex
replacements of the source, applied sequentially over the whole string. -/
def convertHtmlToMarkdown (htmlContent : String) : String :=
  let md := htmlContent.data
  let md := replaceScan brTag "\n".data md
  let md := replaceScan (closeOpenPair "p") "\n\n".data md
  let md := replaceScan (openTag "p") [] md
  let md := replaceScan (closeTag "p") "\n".data md
  let md := replaceScan (closeOpenPair "div") "\n".data md
  let md := replaceScan (openTag "div") [] md
  let md := replaceScan (closeTag "div") "\n".data md
  let md := replaceScan (closeOpenPair "li") "\n".data md
  let md := replaceScan (openTag "li") "• ".data md
  let md := replaceScan (closeTag "li") "\n".data md
  let md := replaceScan listTag "\n".data md
  let md := replaceScan anyTag [] md
  let md := replaceScan (scanLitCI "&nbsp;".data) " ".data md
  let md := replaceScan (scanLitCI "&lt;".data) "<".data md
  let md := replaceScan (scanLitCI "&gt;".data) ">".data md
  let md := replaceScan (scanLitCI "&amp;".data) "&".data md
  let md := replaceScan (scanLitCI "&quot;".data) "\"".data md
  let md := replaceScan (scanLitCI "&#39;".data) "'".data md
  let md := replaceScan tripleNl "\n\n".data md
  let md := stripLeadNl md
  let md := stripTailNl md
  String.mk md

/-- Matcher for a run `[\t ]{2,}` of the per-line whitespace collapse. -/
def tabSpaceRun : Scan := fun l =>
  let isTs : Char → Bool := fun c => c = '\t' || c = ' '
  let run := l.takeWhile isTs
  if 2 ≤ run.length then some (l.drop run.length) else none

/-- Matcher for a newline run `\n{3,}`. -/
def nlRun3 : Scan := fun l =>
  let run := l.takeWhile (fun c => c = '\n')
  if 3 ≤ run.length then some (l.drop run.length) else none

/-- JS `text.split(/\n+/)`: pieces between maximal newline runs, keeping the
empty pieces that JS produces at the borders. -/
def splitNlRuns (s : String) : List String :=
  let rec go (l : List Char) (fuel : Nat) : List (List Char) :=
    match fuel with
    | 0 => [l]
    | Nat.succ f =>
      let piece := l.takeWhile (fun c => c ≠ '\n')
      let rest := l.dropWhile (fun c => c ≠ '\n')
      match rest with
      | [] => [piece]
      | _ => piece :: go (rest.dropWhile (fun c => c = '\n')) f
  (go s.data s.data.length).map String.mk

/-- First-occurrence de-duplication, JS `Array.from(new Set(xs))`. -/
def dedupFirst (l : List String) : List String :=
  let rec go (seen : List String) : List String → List String
    | [] => []
    | x :: rest => if x ∈ seen then go seen rest else x :: go (x :: seen) rest
  go [] l

/-- Test for the chapter-heading line pattern
`^(제?\s*\d+[장절부편]|Chapter\s*\d+|Part\s*\d+|\d+\.|\d+\s*-)` (flag `i`). -/
def chapterLineTest (line : String) : Bool :=
  let digits1 := scanMany1P isDigitCh
  let alt1 := scanSeq (scanOpt (scanCh '제')) (scanSeq scanWs
    (scanSeq digits1 (scanCharP (fun c => c = '장' || c = '절' || c = '부' || c = '편'))))
  let alt2 := scanSeq (scanLitCI "Chapter".data) (scanSeq scanWs digits1)
  let alt3 := scanSeq (scanLitCI "Part".data) (scanSeq scanWs digits1)
  let alt4 := scanSeq digits1 (scanCh '.')
  let alt5 := scanSeq digits1 (scanSeq scanWs (scanCh '-'))
  scanTest (scanAlt alt1 (scanAlt alt2 (scanAlt alt3 (scanAlt alt4 alt5)))) line.data

/-- Test for the subheading line pattern
`^(\d+\.\d+|\d+-\d+|[가-힣]\.|[\(（]\d+[\)）])` (flag `i`). -/
def subheadingLineTest (line : String) : Bool :=
  let digits1 := scanMany1P isDigitCh
  let alt1 := scanSeq digits1 (scanSeq (scanCh '.') digits1)
  let alt2 := scanSeq digits1 (scanSeq (scanCh '-') digits1)
  let alt3 := scanSeq (scanCharP (fun c => '가' ≤ c && c ≤ '힣')) (scanCh '.')
  let alt4 := scanSeq (scanCharP (fun c => c = '(' || c = '（'))
    (scanSeq digits1 (scanCharP (fun c => c = ')' || c = '）')))
  scanTest (scanAlt alt1 (scanAlt alt2 (scanAlt alt3 alt4))) line.data

/-- BookDetailParser.formatTableOfContents: markdown conversion, line-wise
whitespace cleanup that preserves newlines, then classification of each line
as chapter heading (kept unindented), subheading (indented two spaces) or
plain item (kept when its length is in (3,100)). -/
def formatTableOfContents (rawContent : String) : String :=
  let formatted := convertHtmlToMarkdown rawContent
  let formatted := String.mk (replaceScan
    (scanSeq (scanCh '\r') (scanOpt (scanCh '\n'))) "\n".data formatted.data)
  let formatted := String.intercalate "\n" ((splitOnChar '\n' formatted).map
    (fun line => jsTrim (String.mk (replaceScan tabSpaceRun " ".data line.data))))
  let formatted := String.mk (replaceScan nlRun3 "\n\n".data formatted.data)
  let formatted := jsTrim formatted
  let lines := ((splitNlRuns formatted).map jsTrim).filter
    (fun line => decide (0 < jsLength line))
  let structuredToc := lines.foldl (fun acc line =>
    if chapterLineTest line then acc ++ [line]
    else if subheadingLineTest line then acc ++ ["  " ++ line]
    else if decide (3 < jsLength line) && decide (jsLength line < 100) then acc ++ [line]
    else acc) []
  if 0 < structuredToc.length then String.intercalate "\n" structuredToc
  else formatted

end Kyobo.HtmlMd

namespace Kyobo.Toc

open Kyobo.HtmlMd

/-- View of one content container for the table-of-contents extraction: its
own `innerHTML` together with the result of querying
`.auto_overflow_contents` inside it (the query's `innerHTML`, or `none` when
the query finds nothing). -/
structure TocBoxView where
  autoOverflowInner : Option String
  innerHTML : String

/-- View of the next sibling of the "목차" heading, holding the results of
the selector queries that BookDetailParser.extractTableOfContents performs on
it: the `li.book_contents_item`-style list items (their `innerHTML`s in
document order), the optional content box found by
`.auto_overflow_wrap, .box_detail_content, .auto_overflow_contents,
.txt_wrap`, and the sibling element itself. -/
structure TocNextSiblingView where
  contentsListItems : List String
  box : Option TocBoxView
  self : TocBoxView

/-- Line collection performed for the specialized list items: each item's
inner HTML is converted to markdown, split into lines, trimmed, and kept when
non-empty with length in (1,300). -/
def tocLinesFromItems (items : List String) : List String :=
  items.foldl (fun lines html =>
    lines ++ ((splitOnChar '\n' (convertHtmlToMarkdown html)).map jsTrim).filter
      (fun t => !(t == "") && decide (1 < jsLength t) && decide (jsLength t < 300))) []

/-- BookDetailParser.extractTableOfContents, branch 1 (heading found, next
sibling inspected; source lines 285-310): prefer the specialized contents
list items; otherwise take the content box (or the sibling itself), read
`.auto_overflow_contents` inner HTML or the element's own inner HTML, convert
to markdown and, when the trimmed result has length in (10,10000], run the
formatting pass.  The later fallbacks of the method (parent's next sibling,
generic sibling walk, pattern matching, generic selectors) only run when this
branch produces nothing. -/
def extractTocHeadingNextSibling (v : TocNextSiblingView) : Option String :=
  let fromItems : Option String :=
    if 0 < v.contentsListItems.length then
      let uniq := dedupFirst (tocLinesFromItems v.contentsListItems)
      if 0 < uniq.length then
        some (formatTableOfContents (String.intercalate "\n" uniq))
      else none
    else none
  match fromItems with
  | some r => some r
  | none =>
    let target := v.box.getD v.self
    let html :=
      match target.autoOverflowInner with
      | some s => if s = "" then target.innerHTML else s
      | none => target.innerHTML
    if html = "" then none
    else
      let md := jsTrim (convertHtmlToMarkdown html)
      if decide (10 < jsLength md) && decide (jsLength md ≤ 10000) then
        some (formatTableOfContents md)
      else none

/-- Document view of the claim scenario: a heading containing "목차" whose
next sibling is `<div>1장 서론<br>1.1 배경</div>` — the sibling contains no
contents-list items and no content box, so its own inner HTML is used. -/
def tocScenarioView : TocNextSiblingView :=
  { contentsListItems := []
    box := none
    self := { autoOverflowInner := none, innerHTML := "1장 서론<br>1.1 배경" } }

end Kyobo.Toc

namespace Kyobo.Model

/-- The Book record of domain/models/Book.ts.  Optional fields are `Option`;
JS numbers are `Int` (pages, a `parseInt` result) and `ℚ` (rating, a
`parseFloat` result).  The `createdAt`/`updatedAt` `Date` bookkeeping fields
are omitted: no claim mentions them and they carry no parsed data. -/
structure Book where
  id : String
  title : String
  authors : List String
  publisher : String
  subtitle : Option String := none
  publishDate : Option String := none
  isbn : Option String := none
  pages : Option Int := none
  language : Option String := none
  description : Option String := none
  tableOfContents : Option String := none
  categories : Option (List String) := none
  rating : Option ℚ := none
  coverImageUrl : Option String := none
  detailPageUrl : Option String := none
  tags : Option (List String) := none
deriving Repr, DecidableEq

/-- CreateBookInput: required id/title/authors/publisher plus the optional
fields. -/
structure CreateBookInput where
  id : String
  title : String
  authors : List String
  publisher : String
  subtitle : Option String := none
  publishDate : Option String := none
  isbn : Option String := none
  pages : Option Int := none
  language : Option String := none
  description : Option String := none
  tableOfContents : Option String := none
  categories : Option (List String) := none
  rating : Option ℚ := none
  coverImageUrl : Option String := none
  detailPageUrl : Option String := none
  tags : Option (List String) := none

/-- UpdateBookInput: every field optional; an absent field leaves the
existing value untouched. -/
structure UpdateBookInput where
  title : Option String := none
  authors : Option (List String) := none
  publisher : Option String := none
  subtitle : Option String := none
  publishDate : Option String := none
  isbn : Option String := none
  pages : Option Int := none
  language : Option String := none
  description : Option String := none
  tableOfContents : Option String := none
  categories : Option (List String) := none
  rating : Option ℚ := none
  coverImageUrl : Option String := none
  detailPageUrl : Option String := none
  tags : Option (List String) := none

/-- Validation of the `pages` field as performed by the factory: the JS test
`input.pages && input.pages > 0` treats 0 as falsy, so the stored value is
the input exactly when it is nonzero and positive. -/
def validPages (p : Option Int) : Option Int :=
  match p with
  | some n => if n ≠ 0 ∧ 0 < n then some n else none
  | none => none

/-- Validation of the `rating` field as performed by the factory: the JS test
`input.rating && input.rating >= 0 && input.rating <= 10` treats 0 as falsy. -/
def validRating (r : Option ℚ) : Option ℚ :=
  match r with
  | some q => if q ≠ 0 ∧ 0 ≤ q ∧ q ≤ 10 then some q else none
  | none => none

/-- BookFactory.create: trims the string fields, filters empty authors,
categories and tags (`filter(Boolean)`), defaults the language to "ko", and
guards `pages`/`rating` — but performs no ISBN-length check and accepts an
empty title. -/
def BookFactory.create (input : CreateBookInput) : Book :=
  { id := input.id
    title := jsTrim input.title
    authors := (input.authors.map jsTrim).filter (fun a => !(a == ""))
    publisher := jsTrim input.publisher
    subtitle := input.subtitle.map jsTrim
    publishDate := input.publishDate
    isbn := input.isbn.map jsTrim
    pages := validPages input.pages
    language := some (match input.language with
      | some lang => if lang = "" then "ko" else lang
      | none => "ko")
    description := input.description.map jsTrim
    tableOfContents := input.tableOfContents.map jsTrim
    categories := input.categories.map
      (fun cs => (cs.map jsTrim).filter (fun c => !(c == "")))
    rating := validRating input.rating
    coverImageUrl := input.coverImageUrl.map jsTrim
    detailPageUrl := input.detailPageUrl.map jsTrim
    tags := input.tags.map (fun ts => (ts.map jsTrim).filter (fun t => !(t == ""))) }

/-- BookFactory.update: spread of the existing record, with each present
update field overriding after the same per-field treatment as `create`. -/
def BookFactory.update (existing : Book) (updates : UpdateBookInput) : Book :=
  { id := existing.id
    title := match updates.title with
      | some t => jsTrim t
      | none => existing.title
    authors := match updates.authors with
      | some as => (as.map jsTrim).filter (fun a => !(a == ""))
      | none => existing.authors
    publisher := match updates.publisher with
      | some p => jsTrim p
      | none => existing.publisher
    subtitle := match updates.subtitle with
      | some s => some (jsTrim s)
      | none => existing.subtitle
    publishDate := match updates.publishDate with
      | some d => some d
      | none => existing.publishDate
    isbn := match updates.isbn with
      | some i => some (jsTrim i)
      | none => existing.isbn
    pages := match updates.pages with
      | some _ => validPages updates.pages
      | none => existing.pages
    language := match updates.language with
      | some lang => some lang
      | none => existing.language
    description := match updates.description with
      | some d => some (jsTrim d)
      | none => existing.description
    tableOfContents := match updates.tableOfContents with
      | some t => some (jsTrim t)
      | none => existing.tableOfContents
    categories := match updates.categories with
      | some cs => some ((cs.map jsTrim).filter (fun c => !(c == "")))
      | none => existing.categories
    rating := match updates.rating with
      | some _ => validRating updates.rating
      | none => existing.rating
    coverImageUrl := match updates.coverImageUrl with
      | some u => some (jsTrim u)
      | none => existing.coverImageUrl
    detailPageUrl := match updates.detailPageUrl with
      | some u => some (jsTrim u)
      | none => existing.detailPageUrl
    tags := match updates.tags with
      | some ts => some ((ts.map jsTrim).filter (fun t => !(t == "")))
      | none => existing.tags }

end Kyobo.Model

namespace Kyobo.Detail

open Kyobo.Model

/-- JS string truthiness filter: `""` (and an absent value) is falsy. -/
def strTruthy (o : Option String) : Option String :=
  match o with
  | some s => if s = "" then none else some s
  | none => none

/-- Result of BookDetailParser.extractFromJsonLd: the fields harvested from
`application/ld+json` nodes typed Book/Product (`none` when the method
returns `null`). -/
structure JsonLdView where
  name : Option String := none
  isbn : Option String := none
  image : Option String := none
  description : Option String := none
  publisher : Option String := none
  authors : Option (List String) := none

/-- Outcome of one private extractor of BookDetailParser on the current
document: either the value it computes, or the message of the exception it
throws (caught by the surrounding try/catch).  The record holds one outcome
per extractor the source invokes in `extractDetailedInfo`; there is no
`pages` member because the source's page-count step is disabled (lines 87-88
are a comment stating pages are deliberately not collected). -/
structure DetailExtractOutcomes where
  jsonLd : Except String (Option JsonLdView)
  isbn : Except String (Option String)
  description : Except String (Option String)
  publisher : Except String (Option String)
  publishDate : Except String (Option String)
  toc : Except String (Option String)
  categories : Except String (List String)
  rating : Except String (Option ℚ)
  cover : Except String (Option String)

/-- Accumulator state of `extractDetailedInfo`: the updates record being
filled and the `parseResults.errors` list. -/
abbrev DetailAcc := UpdateBookInput × List String

/-- JSON-LD seeding step (wrapped in its own try/catch).  Each field is set
only when the JSON-LD value is truthy and — per the source's guards — the
updates field is still unset; the ISBN falls back to the raw JSON-LD value
when normalisation rejects it. -/
def stepJsonLd (s : DetailAcc) (e : Except String (Option JsonLdView)) : DetailAcc :=
  match e with
  | .error msg => (s.1, s.2 ++ ["JSON-LD: " ++ msg])
  | .ok none => s
  | .ok (some ld) =>
    let u := s.1
    let u := match strTruthy ld.isbn with
      | some raw => { u with isbn := some ((TextUtils.normalizeISBN raw).getD raw) }
      | none => u
    let u := match strTruthy ld.description, u.description with
      | some d, none => { u with description := some d }
      | _, _ => u
    let u := match strTruthy ld.image, u.coverImageUrl with
      | some i, none => { u with coverImageUrl := some i }
      | _, _ => u
    let u := match strTruthy ld.publisher, u.publisher with
      | some p, none => { u with publisher := some p }
      | _, _ => u
    let u := match ld.authors, u.authors with
      | some as, none => { u with authors := some as }
      | _, _ => u
    let u := match strTruthy ld.name, u.title with
      | some n, none => { u with title := some n }
      | _, _ => u
    (u, s.2)

/-- Step for an extractor producing an optional string that is stored under
`set` when truthy (ISBN, description, publisher, publish date, TOC, cover). -/
def stepStrField (tag : String) (set : UpdateBookInput → String → UpdateBookInput)
    (s : DetailAcc) (e : Except String (Option String)) : DetailAcc :=
  match e with
  | .error msg => (s.1, s.2 ++ [tag ++ msg])
  | .ok r =>
    match strTruthy r with
    | some v => (set s.1 v, s.2)
    | none => s

/-- Category step: stored when the list is non-empty. -/
def stepCategories (s : DetailAcc) (e : Except String (List String)) : DetailAcc :=
  match e with
  | .error msg => (s.1, s.2 ++ ["Categories: " ++ msg])
  | .ok cs => if 0 < cs.length then ({ s.1 with categories := some cs }, s.2) else s

/-- Rating step: stored whenever the extractor returns a value (`!==
undefined`, not a truthiness test). -/
def stepRating (s : DetailAcc) (e : Except String (Option ℚ)) : DetailAcc :=
  match e with
  | .error msg => (s.1, s.2 ++ ["Rating: " ++ msg])
  | .ok (some r) => ({ s.1 with rating := some r }, s.2)
  | .ok none => s

/-- BookDetailParser.extractDetailedInfo: run the extractor steps in source
order, each one catching its own exception into the error list so the
remaining steps still run.  The disabled pages step contributes nothing. -/
def extractDetailedInfo (o : DetailExtractOutcomes) : DetailAcc :=
  let s : DetailAcc := ({}, [])
  let s := stepJsonLd s o.jsonLd
  let s := stepStrField "ISBN: " (fun u v => { u with isbn := some v }) s o.isbn
  let s := stepStrField "Description: " (fun u v => { u with description := some v }) s o.description
  let s := stepStrField "Publisher: " (fun u v => { u with publisher := some v }) s o.publisher
  let s := stepStrField "PublishDate: " (fun u v => { u with publishDate := some v }) s o.publishDate
  let s := stepStrField "TOC: " (fun u v => { u with tableOfContents := some v }) s o.toc
  let s := stepCategories s o.categories
  let s := stepRating s o.rating
  let s := stepStrField "Cover: " (fun u v => { u with coverImageUrl := some v }) s o.cover
  s

/-- Chain of JS `||` over the cover-fallback code source:
`updates.isbn || book.isbn || book.id`. -/
def coverFallbackCode (updates : UpdateBookInput) (book : Book) : String :=
  match strTruthy updates.isbn with
  | some s => s
  | none =>
    match strTruthy book.isbn with
    | some s => s
    | none => book.id

/-- BookDetailParser.enrichBook.  `coverFallback` stands for the pure URL
helper composition `UrlUtils.optimizeImageUrl(UrlUtils.buildCoverImageUrl _,
\x7bwidth: 300, format: 'jpg'\x7d)` applied to the fallback code.  The body of
the source's try block is total in this embedding (every extractor exception
is already caught inside `extractDetailedInfo`, and the merge
`BookFactory.update` is a total record merge), so the catch branch — which
would wrap the failure in a ParseError carrying the book id and the original
error — is unreachable and `enrichBook` always returns a book. -/
def enrichBook (coverFallback : String → String) (book : Book)
    (o : DetailExtractOutcomes) : Book :=
  let updates := (extractDetailedInfo o).1
  let updates :=
    if (updates.coverImageUrl.getD "") = "" then
      { updates with coverImageUrl := some (coverFallback (coverFallbackCode updates book)) }
    else updates
  BookFactory.update book updates

/-- Error list of `getParseResults().errors` after `extractDetailedInfo`:
specification-side characterisation used by the error-policy theorem. -/
def errTag {α : Type} (tag : String) (e : Except String α) : List String :=
  match e with
  | .error msg => [tag ++ msg]
  | .ok _ => []

/-- Document view for BookDetailParser.extractPages: the texts delivered by
each stage's selector queries, in document order. -/
structure PagesDocView where
  pagesSelectorTexts : List String
  detailAreaTexts : List String
  labelCandidateTexts : List String
  bodyText : String

/-- Test of the label regex `페이지|쪽수|쪽` used by the proximity stage. -/
def pagesLabelTest (t : String) : Bool :=
  strIncludes t "페이지" || strIncludes t "쪽수" || strIncludes t "쪽"

/-- BookDetailParser.extractPages: the four-stage cascade — field selectors,
broadened detail-container scan, label-proximity scan, then the full body
text — each stage returning the first text whose `TextUtils.extractPages`
yields a value. -/
def extractPagesCascade (d : PagesDocView) : Option Nat :=
  match d.pagesSelectorTexts.findSome? TextUtils.extractPages with
  | some n => some n
  | none =>
    match d.detailAreaTexts.findSome? TextUtils.extractPages with
    | some n => some n
    | none =>
      match (d.labelCandidateTexts.filter
          (fun t => !(t == "") && pagesLabelTest t)).findSome? TextUtils.extractPages with
      | some n => some n
      | none => TextUtils.extractPages d.bodyText

end Kyobo.Detail

namespace Kyobo.Client

/-- Outcome of one raw transport call (Obsidian `requestUrl` with
`throw: false`): either the transport layer itself fails (network error,
timeout), or it resolves with a status and body text.  Indexed by attempt
number so a mock transport can change behaviour between attempts. -/
inductive TransportResult where
  | netFail (msg : String)
  | resp (status : Nat) (text : String)

/-- Categorised errors of KyobobookClient.executeRequest (all of them are
`NetworkError`s in the source; the constructor records which validation
failed). -/
inductive ReqError where
  | transport (msg : String)
  | httpStatus (status : Nat)
  | emptyBody
deriving Repr, DecidableEq

/-- Response value produced by a successful request. -/
structure HttpResp where
  data : String
  status : Nat
deriving Repr, DecidableEq

/-- KyobobookClient.executeRequest: transport failure becomes a NetworkError;
a resolved response errors when the status is outside [200,300) — with no
distinction between 4xx and 5xx — or when the body is empty. -/
def executeRequest (t : TransportResult) : Except ReqError HttpResp :=
  match t with
  | .netFail m => .error (.transport m)
  | .resp status text =>
    if status < 200 ∨ 300 ≤ status then .error (.httpStatus status)
    else if text = "" then .error .emptyBody
    else .ok { data := text, status := status }

/-- Observable outcome of the retry loop: the final result (the error case
carries `lastError`, absent when the loop body never ran), the number of
attempts actually executed, and the backoff delays slept between attempts. -/
structure RetryOutcome where
  result : Except (Option ReqError) HttpResp
  attempts : Nat
  backoffsMs : List Nat
deriving Repr

/-- Loop body of KyobobookClient.executeWithRetry: `for (attempt = 1; attempt
<= retries; attempt++)`, every caught error is retried (there is no
non-retryable class), with backoff `1000 * 2^(attempt-1)` ms slept whenever
`attempt < retries`.  The fuel equals the remaining number of iterations. -/
def executeWithRetryGo (transport : Nat → TransportResult) (retries : Nat) :
    Nat → Nat → Option ReqError → List Nat → RetryOutcome
  | 0, attempt, lastErr, acc => { result := .error lastErr, attempts := attempt - 1, backoffsMs := acc }
  | Nat.succ fuel, attempt, _, acc =>
    match executeRequest (transport attempt) with
    | .ok r => { result := .ok r, attempts := attempt, backoffsMs := acc }
    | .error e =>
      if attempt < retries then
        executeWithRetryGo transport retries fuel (attempt + 1) (some e)
          (acc ++ [1000 * 2 ^ (attempt - 1)])
      else { result := .error (some e), attempts := attempt, backoffsMs := acc }

/-- KyobobookClient.executeWithRetry. -/
def executeWithRetry (transport : Nat → TransportResult) (retries : Nat) : RetryOutcome :=
  executeWithRetryGo transport retries retries 1 none []

end Kyobo.Client

namespace Kyobo.Service

open Kyobo.Model Kyobo.Detail

/-- Base Book built by BookService.getBookDetail before enrichment (source
lines 217-224): only the id, the detail-page URL and the language are set —
in particular the title is the empty string. -/
def detailBaseBook (bookId detailUrl : String) : Book :=
  BookFactory.create
    { id := bookId, title := "", authors := [], publisher := ""
      detailPageUrl := some detailUrl, language := some "ko" }

/-- Enrichment test applied by BookService.getBookDetail to a cache hit
(source lines 180-185): a non-empty trimmed description, a non-empty trimmed
table of contents, an ISBN whose trimmed length is at least 10, or a positive
page count. -/
def hasEnrichedDetail (b : Book) : Bool :=
  (match b.description with
    | some d => !(d == "") && decide (0 < jsLength (jsTrim d))
    | none => false) ||
  (match b.tableOfContents with
    | some t => !(t == "") && decide (0 < jsLength (jsTrim t))
    | none => false) ||
  (match b.isbn with
    | some i => !(i == "") && decide (10 ≤ jsLength (jsTrim i))
    | none => false) ||
  (match b.pages with
    | some p => decide (0 < p)
    | none => false)

/-- Enrichment notion written in the claim's words (for comparison against
the code's `hasEnrichedDetail`): a non-empty description, a non-empty table
of contents, *any* ISBN, or a positive page count. -/
def claimEnriched (b : Book) : Bool :=
  (match b.description with
    | some d => !(d == "")
    | none => false) ||
  (match b.tableOfContents with
    | some t => !(t == "")
    | none => false) ||
  b.isbn.isSome ||
  (match b.pages with
    | some p => decide (0 < p)
    | none => false)

/-- Control-flow outcome of the cache check at the top of
BookService.getBookDetail: either the cached book is returned as the detail
result without any fetch, or the method proceeds to fetch and parse the
detail page. -/
inductive DetailPath where
  | cached (b : Book)
  | fetch
deriving Repr, DecidableEq

/-- Cache check of BookService.getBookDetail: a hit whose record passes
`hasEnrichedDetail` is returned immediately; a thin hit is ignored and the
fresh fetch path is taken, as is a plain miss. -/
def detailCachePath (lookup : Option Book) : DetailPath :=
  match lookup with
  | some b => if hasEnrichedDetail b then .cached b else .fetch
  | none => .fetch

end Kyobo.Service

namespace Kyobo.Cache

/-- One cache slot of MemoryCache: the stored value with the bookkeeping
fields mutated by `get`/`set`.  Times are the millisecond clock (`Date.now`)
as a rational. -/
structure CacheEntryM (α : Type) where
  value : α
  timestamp : ℚ
  lastAccess : ℚ
  accessCount : Nat

/-- The JS `Map` backing the cache: association list in insertion order,
keys unique. -/
abbrev CacheMap (α : Type) := List (String × CacheEntryM α)

/-- Key membership (`Map.has`). -/
def mapHas {α : Type} (m : CacheMap α) (k : String) : Bool :=
  m.any (fun p => p.1 == k)

/-- MemoryCache.calculateEvictionScore:
`(timeSinceLastAccess * 0.7) - (accessFrequency * 1000 * 0.3)`. -/
def evictionScore {α : Type} (now : ℚ) (e : CacheEntryM α) : ℚ :=
  (now - e.lastAccess) * (7 / 10) - ((e.accessCount : ℚ) * 1000 * (3 / 10))

/-- Selection loop of MemoryCache.evictLeastRecentlyUsed: fold over the map
with running `(lruKey, lruTime)` initialised to `("", Date.now())`, replacing
the pair whenever an entry's score is strictly below the running value. -/
def selectEvictionKey {α : Type} (now : ℚ) (m : CacheMap α) : String × ℚ :=
  m.foldl (fun acc kv =>
    if evictionScore now kv.2 < acc.2 then (kv.1, evictionScore now kv.2) else acc)
    ("", now)

/-- MemoryCache.evictLeastRecentlyUsed: delete the selected key — guarded by
the truthiness test `if (lruKey)`, under which the empty-string key is never
deleted. -/
def evictLeastRecentlyUsed {α : Type} (now : ℚ) (m : CacheMap α) : CacheMap α :=
  let lruKey := (selectEvictionKey now m).1
  if lruKey = "" then m
  else m.eraseP (fun p => p.1 == lruKey)

/-- MemoryCache.set: an existing key is updated in place (value, timestamp,
lastAccess; the access count is kept); otherwise, when the map already holds
at least `maxSize` entries, the LRU eviction runs once, and the new entry is
appended with access count 1. -/
def cacheSet {α : Type} (maxSize : Nat) (now : ℚ) (m : CacheMap α)
    (k : String) (v : α) : CacheMap α :=
  if mapHas m k then
    m.map (fun p =>
      if p.1 == k then (p.1, { p.2 with value := v, timestamp := now, lastAccess := now })
      else p)
  else
    let m1 := if maxSize ≤ m.length then evictLeastRecentlyUsed now m else m
    m1 ++ [(k, { value := v, timestamp := now, lastAccess := now, accessCount := 1 })]

end Kyobo.Cache

namespace Kyobo.Service

open Kyobo.Model

/-- UTF-8 bytes of one character (the encoding applied by
`Buffer.from(string)`). -/
def utf8BytesOfChar (c : Char) : List Nat :=
  let n := c.toNat
  if n < 0x80 then [n]
  else if n < 0x800 then [0xC0 + n / 64, 0x80 + n % 64]
  else if n < 0x10000 then [0xE0 + n / 4096, 0x80 + (n / 64) % 64, 0x80 + n % 64]
  else [0xF0 + n / 262144, 0x80 + (n / 4096) % 64, 0x80 + (n / 64) % 64, 0x80 + n % 64]

/-- UTF-8 encoding of a string as a byte list. -/
def utf8Encode (s : String) : List Nat := s.data.foldr (fun c acc => utf8BytesOfChar c ++ acc) []

/-- Standard base64 alphabet. -/
def base64Digit (n : Nat) : Char :=
  "ABCDEFGHIJKLMNOPQRSTUVWXYZabcdefghijklmnopqrstuvwxyz0123456789+/".data.getD n '?'

/-- Base64 with padding, `Buffer.prototype.toString('base64')`. -/
def base64Encode : List Nat → String
  | [] => ""
  | [a] => String.mk [base64Digit (a / 4), base64Digit (a % 4 * 16), '=', '=']
  | [a, b] => String.mk [base64Digit (a / 4), base64Digit (a % 4 * 16 + b / 16),
      base64Digit (b % 16 * 4), '=']
  | a :: b :: c :: rest =>
    String.mk [base64Digit (a / 4), base64Digit (a % 4 * 16 + b / 16),
      base64Digit (b % 16 * 4 + c / 64), base64Digit (c % 64)] ++ base64Encode rest

/-- JSON string escaping of `JSON.stringify` for one character. -/
def jsonEscapeChar (c : Char) : String :=
  if c = '"' then "\\\""
  else if c = '\\' then "\\\\"
  else if c = '\n' then "\\n"
  else if c = '\r' then "\\r"
  else if c = '\t' then "\\t"
  else if c = '\x08' then "\\b"
  else if c = '\x0c' then "\\f"
  else if c.toNat < 0x20 then
    "\\u00" ++ String.mk ["0123456789abcdef".data.getD (c.toNat / 16) '0',
      "0123456789abcdef".data.getD (c.toNat % 16) '0']
  else String.mk [c]

/-- ASCII lower-casing of `String.prototype.toLowerCase` (the Hangul and
symbol characters of the modelled inputs are unaffected by the full Unicode
mapping). -/
def jsToLowerAscii (s : String) : String := String.mk (s.data.map lowerCh)

/-- BookService.buildSearchCacheKey: `"search:" + base64(JSON.stringify(
\x7b query: query.trim().toLowerCase(), maxResults, enableDetailFetch \x7d))`. -/
def buildSearchCacheKey (query : String) (maxResults : Nat)
    (enableDetailFetch : Bool) : String :=
  let json := "\x7b\"query\":\"" ++
    String.join ((jsToLowerAscii (jsTrim query)).data.map jsonEscapeChar) ++
    "\",\"maxResults\":" ++ toString maxResults ++
    ",\"enableDetailFetch\":" ++ (if enableDetailFetch then "true" else "false") ++ "\x7d"
  "search:" ++ base64Encode (utf8Encode json)

/-- Search options with the defaults of BookService (`timeout` omitted: the
embedding has no clock-bound I/O). -/
structure SearchOptionsM where
  maxResults : Nat := 20
  enableDetailFetch : Bool := false
  cacheResults : Bool := true

/-- Observable part of the SearchResult record (parse metrics and timings
omitted; `totalFound` is the parser's total item count). -/
structure SearchResultM where
  books : List Book
  totalFound : Nat
  query : String
  hasMore : Bool
deriving DecidableEq

/-- Error kinds surfaced by searchBooks. -/
inductive SearchErr where
  | validation (msg : String)
  | network
  | parse
deriving Repr, DecidableEq

/-- BookService.validateSearchQuery: empty, shorter than 2 or longer than 100
characters (after trimming) is rejected. -/
def validateSearchQuery (query : String) : Option SearchErr :=
  if jsLength (jsTrim query) = 0 then some (.validation "검색어를 입력해주세요")
  else if jsLength (jsTrim query) < 2 then some (.validation "검색어는 2글자 이상 입력해주세요")
  else if 100 < jsLength (jsTrim query) then some (.validation "검색어가 너무 깁니다 (최대 100자)")
  else none

/-- BookService.getCachedSearchResult: ignores what is stored under the key
and returns the fixed empty result (the source comments that only individual
books are cached, so no stored search result exists to return). -/
def getCachedSearchResult (query : String) : SearchResultM :=
  { books := [], totalFound := 0, query := query, hasMore := false }

/-- BookService.cacheSearchResult: the body of the source method is empty —
storing a search result is a no-op. -/
def cacheSearchResultStep (cache : List (String × Book)) (_key : String)
    (_result : SearchResultM) : List (String × Book) :=
  cache

/-- Store step of the book cache used through the BookCache interface
(`cache.set`), keyed as the caller chooses. -/
def bookCacheSet (cache : List (String × Book)) (k : String) (b : Book) :
    List (String × Book) :=
  if cache.any (fun p => p.1 == k) then
    cache.map (fun p => if p.1 == k then (p.1, b) else p)
  else cache ++ [(k, b)]

/-- Per-book outcome of the enrichment pass `enrichBooksWithDetails` →
`getBookDetail`: on success the enriched book replaces the listing book and,
when the success came from a fresh fetch, it is written to the cache under
`"detail:" + id`; a failure (or a cache-served hit, which writes nothing)
leaves the cache untouched.  The pair is (book delivered, whether a fresh
fetch result was written). -/
def enrichStep (outcome : Book → Option (Book × Bool))
    (cache : List (String × Book)) (b : Book) : Book × List (String × Book) :=
  match outcome b with
  | some (b2, wrote) =>
    (b2, if wrote then bookCacheSet cache ("detail:" ++ b.id) b2 else cache)
  | none => (b, cache)

/-- Enrichment fold over the listed books. -/
def enrichBooksFold (outcome : Book → Option (Book × Bool))
    (cache : List (String × Book)) (books : List Book) :
    List Book × List (String × Book) :=
  books.foldl (fun acc b =>
    let r := enrichStep outcome acc.2 b
    (acc.1 ++ [r.1], r.2)) ([], cache)

/-- BookService.searchBooks: validation, cache check (hit ⇒ the fixed empty
result, no state change), then — abstracting the network/parse round trip as
`fetchParse`, the parsed books with the parser's total item count — optional
detail enrichment and the no-op cache-store step. -/
def searchBooksM (cache : List (String × Book)) (query : String)
    (opts : SearchOptionsM) (fetchParse : Option (List Book × Nat))
    (outcome : Book → Option (Book × Bool)) :
    Except SearchErr (SearchResultM × List (String × Book)) :=
  match validateSearchQuery query with
  | some e => .error e
  | none =>
    let cacheKey := buildSearchCacheKey query opts.maxResults opts.enableDetailFetch
    if opts.cacheResults && cache.any (fun p => p.1 == cacheKey) then
      .ok (getCachedSearchResult query, cache)
    else
      match fetchParse with
      | none => .error .network
      | some (books, totalItems) =>
        let (enriched, cache2) :=
          if opts.enableDetailFetch then enrichBooksFold outcome cache books
          else (books, cache)
        let result : SearchResultM :=
          { books := enriched, totalFound := totalItems, query := query
            hasMore := decide (enriched.length < totalItems) }
        let cache3 := cacheSearchResultStep cache2 cacheKey result
        .ok (result, cache3)

end Kyobo.Service

namespace Kyobo.Search

open Kyobo.Model

/-- View of one `<a href>` descendant of a listing item: its `href` and the
attribute/text sources the title extraction reads (`extractAttribute` yields
`""` for an absent attribute). -/
structure LinkView where
  href : String
  titleAttr : String
  ariaLabel : String
  text : String
deriving Repr, DecidableEq

/-- View of one candidate listing element.  `links` holds every `<a href>`
descendant in document order (the source's attribute-substring selectors are
evaluated as `href`-containment filters over it); the `…Result` fields record
what the author/publisher/date/cover sub-extractors — whose selector chains
are not under verification here — produce for this element. -/
structure ItemElem where
  eid : Nat
  className : String
  textContent : String
  visible : Bool
  links : List LinkView
  lazyBid : String
  titleSelText : Option String
  authorsResult : List String
  publisherResult : String
  publishDateResult : String
  coverResult : String
deriving Repr, DecidableEq

/-- Package keywords, KEYWORDS.PACKAGE_PRODUCTS. -/
def packageKeywords : List String := ["패키지", "세트", "전집", "시리즈", "묶음"]

/-- SearchResultParser.isPackageProduct. -/
def isPackageProduct (text : String) : Bool :=
  packageKeywords.any (fun kw => strIncludes text kw)

/-- BaseParser.extractText: the cleaned text content. -/
def itemText (item : ItemElem) : String := TextUtils.clean item.textContent

/-- SearchResultParser.filterValidItems: visible, containing a detail link,
at least 10 characters of cleaned text, and not a package product. -/
def filterValidItems (items : List ItemElem) : List ItemElem :=
  items.filter (fun item =>
    item.visible &&
    item.links.any (fun l => strIncludes l.href "detail") &&
    decide (10 ≤ jsLength (itemText item)) &&
    !(isPackageProduct (itemText item)))

/-- One discovered detail link together with its ancestor chain (nearest
parent first), over which findBookContainer walks. -/
structure BookLinkNode where
  ancestors : List ItemElem
deriving Repr, DecidableEq

/-- Class-name patterns of SearchResultParser.findBookContainer. -/
def containerPatterns : List String :=
  ["prod", "product", "book", "item", "result", "search",
   "list", "card", "box", "wrap", "container"]

/-- SearchResultParser.findBookContainer: first of (at most) five ancestors
whose lower-cased class name contains a container pattern and whose raw text
length lies strictly between 20 and 1000. -/
def findBookContainer (link : BookLinkNode) : Option ItemElem :=
  (link.ancestors.take 5).find? (fun el =>
    (containerPatterns.any (fun p =>
      strIncludes (String.mk (el.className.data.map lowerCh)) p)) &&
    decide (20 < jsLength el.textContent) &&
    decide (jsLength el.textContent < 1000))

/-- Loop of SearchResultParser.findItemsByLinks: deduplicate containers by
element identity and stop after the twentieth pushed item.  No package or
visibility filter runs on this path. -/
def findItemsByLinksGo : List BookLinkNode → List Nat → List ItemElem → List ItemElem
  | [], _, acc => acc
  | link :: rest, seen, acc =>
    match findBookContainer link with
    | some c =>
      if seen.contains c.eid then findItemsByLinksGo rest seen acc
      else
        let acc2 := acc ++ [c]
        if 20 ≤ acc2.length then acc2
        else findItemsByLinksGo rest (c.eid :: seen) acc2
    | none => findItemsByLinksGo rest seen acc

/-- SearchResultParser.findItemsByLinks. -/
def findItemsByLinks (links : List BookLinkNode) : List ItemElem :=
  findItemsByLinksGo links [] []

/-- Document view of a search-results page: the elements found by the
structural selector cascade (SELECTORS.SEARCH_RESULT_ITEMS) and the detail
links found by SELECTORS.BOOK_DETAIL_LINKS with their ancestor chains. -/
structure SearchDocView where
  structuralItems : List ItemElem
  bookLinks : List BookLinkNode

/-- SearchResultParser.findResultItems: the structural candidates (filtered)
when any exist, otherwise the link-based fallback — whose output is returned
unfiltered. -/
def findResultItems (doc : SearchDocView) : List ItemElem :=
  if 0 < doc.structuralItems.length then filterValidItems doc.structuralItems
  else findItemsByLinks doc.bookLinks

/-- Matcher for `\/detail\/S?(\d{6,})`-style book-id patterns: the given
literal followed by a greedy run of at least six digits, returning the
digits.  `decodeURIComponent` is modelled as the identity, exact for hrefs
without percent-escapes. -/
def bookIdPatAt (lit : String) (l : List Char) : Option (List Char) :=
  match scanLit lit.data l with
  | some r =>
    let ds := r.takeWhile isDigitCh
    if 6 ≤ ds.length then some ds else none
  | none => none

/-- Matcher for the fallback pattern `[?&]id=(\d{6,})`. -/
def idQueryPatAt (l : List Char) : Option (List Char) :=
  match scanCharP (fun c => c = '?' || c = '&') l with
  | some r =>
    match scanLit "id=".data r with
    | some r2 =>
      let ds := r2.takeWhile isDigitCh
      if 6 ≤ ds.length then some ds else none
    | none => none
  | none => none

/-- UrlUtils.extractBookId: the primary detail-path patterns in order, then
the query-parameter fallback. -/
def extractBookId (url : String) : Option String :=
  if url = "" then none
  else
    let u := url.data
    let pats : List (List Char → Option (List Char)) :=
      [bookIdPatAt "/detail/S", bookIdPatAt "/detail/",
       bookIdPatAt "product.kyobobook.co.kr/detail/S",
       bookIdPatAt "product.kyobobook.co.kr/detail/",
       idQueryPatAt]
    (pats.findSome? (fun pat => searchFirst pat u)).map String.mk

/-- Strip one leading `S` (regex `^S`). -/
def stripLeadS (s : String) : String :=
  match s.data with
  | 'S' :: rest => String.mk rest
  | _ => s

/-- UrlUtils.buildDetailPageUrl. -/
def buildDetailPageUrl (bookId : String) : String :=
  if bookId = "" then ""
  else
    let id := if jsStartsWith bookId "S" then bookId else "S" ++ bookId
    "https://product.kyobobook.co.kr/detail/" ++ id

/-- UrlUtils.buildCoverImageUrl at the default `medium` size: barcode-like
codes (12-13 digits after cleanup) are used as-is, otherwise the `S`-stripped
code. -/
def buildCoverImageUrl (code : String) : String :=
  if code = "" then ""
  else
    let normalized := String.mk ((stripLeadS code).data.filter
      (fun c => isDigitCh c || c = 'X' || c = 'x'))
    let isBarcode := decide (12 ≤ normalized.data.length) &&
      decide (normalized.data.length ≤ 13) && normalized.data.all isDigitCh
    let target := if isBarcode then normalized else stripLeadS code
    "https://contents.kyobobook.co.kr/sih/fit-in/200x0/pdt/" ++ target ++ ".jpg"

/-- Result of SearchResultParser.extractUrlAndId: a resolved id, or the
temporary-id branch (`temp_` + time + random, represented by the caller's
`tempId`). -/
inductive UrlAndId where
  | found (url : String) (bookId : String)
  | temp
deriving Repr, DecidableEq

/-- SearchResultParser.extractUrlAndId: the four selector filters in priority
order; within each, the first link whose (non-empty) href yields a book id
wins. -/
def extractUrlAndId (item : ItemElem) : UrlAndId :=
  let selFilters : List (LinkView → Bool) :=
    [fun l => strIncludes l.href "/detail/S",
     fun l => strIncludes l.href "/detail/",
     fun l => strIncludes l.href "product.kyobobook.co.kr/detail",
     fun _ => true]
  let hit := selFilters.findSome? (fun f =>
    (item.links.filter f).findSome? (fun l =>
      if l.href = "" then none else extractBookId l.href))
  match hit with
  | some bookId => .found (buildDetailPageUrl bookId) bookId
  | none => .temp

/-- Invalid-title token set of SearchResultParser.extractTitle. -/
def invalidTitles : List String :=
  ["종이책", "전자책", "ebook", "e북", "세트", "전집", "패키지", "원서/번역서", "원서", "번역서"]

/-- Test `/[A-Za-z가-힣]/` for at least one alphabetic or Hangul character. -/
def hasWordChar (t : String) : Bool :=
  t.data.any (fun c =>
    ('A' ≤ c && c ≤ 'Z') || ('a' ≤ c && c ≤ 'z') || ('가' ≤ c && c ≤ '힣'))

/-- SearchResultParser.extractTitle: over the `a[href*="detail"]` links,
prefer the `title`/`aria-label` attribute over the link text, clean the
candidate, reject short/long/blacklisted/wordless candidates, and keep the
longest survivor; fall back to the SELECTORS.TITLE element's cleaned text. -/
def extractTitle (item : ItemElem) : String :=
  let detailLinks := item.links.filter (fun l => strIncludes l.href "detail")
  let best := detailLinks.foldl (fun best l =>
    let attrTitle := if l.titleAttr = "" then l.ariaLabel else l.titleAttr
    let candidateRaw := if attrTitle = "" then TextUtils.clean l.text else attrTitle
    let t := TextUtils.cleanTitle candidateRaw
    if t = "" then best
    else if jsLength t < 2 || 200 < jsLength t then best
    else if invalidTitles.contains (Kyobo.Service.jsToLowerAscii t) then best
    else if !(hasWordChar t) then best
    else if jsLength best < jsLength t then t
    else best) ""
  if best ≠ "" then best
  else
    match item.titleSelText with
    | some txt =>
      let tt := TextUtils.cleanTitle (TextUtils.clean txt)
      if tt ≠ "" && !(invalidTitles.contains (Kyobo.Service.jsToLowerAscii tt)) then tt
      else ""
    | none => ""

/-- Test of the lazy-image barcode against `^\d{12,13}$`. -/
def isBarcodeDigits (s : String) : Bool :=
  decide (12 ≤ s.data.length) && decide (s.data.length ≤ 13) && s.data.all isDigitCh

/-- SearchResultParser.parseItem: extract url/id, title, authors, publisher
info and cover; reject items with no usable title (the book-id check of the
source never rejects, since the temporary id is non-empty); apply the cover
fallback; and build the Book through the factory. -/
def parseItem (tempId : String) (item : ItemElem) : Option Book :=
  let uid := extractUrlAndId item
  let url := match uid with
    | .found u _ => u
    | .temp => ""
  let bookId := match uid with
    | .found _ i => i
    | .temp => tempId
  let title := extractTitle item
  let authors := item.authorsResult
  let publisher := item.publisherResult
  let publishDate := item.publishDateResult
  let bidFromLazy := item.lazyBid
  let isbn := if isBarcodeDigits bidFromLazy then bidFromLazy else ""
  let coverImageUrl0 := item.coverResult
  if title = "" || jsLength title < 2 then none
  else if bookId = "" then none
  else
    let coverImageUrl :=
      if coverImageUrl0 = "" || jsLength coverImageUrl0 < 10 then
        if isbn ≠ "" then buildCoverImageUrl isbn
        else if bookId ≠ "" then buildCoverImageUrl bookId
        else coverImageUrl0
      else coverImageUrl0
    some (BookFactory.create
      { id := bookId
        title := TextUtils.cleanTitle title
        authors := if 0 < authors.length then authors else ["저자미상"]
        publisher := if publisher = "" then "출판사미상" else publisher
        publishDate := some publishDate
        isbn := if isbn = "" then none else some isbn
        coverImageUrl := some coverImageUrl
        detailPageUrl := some url
        language := some "ko" })

/-- SearchResultParser.parseBatch: walk the batch, stopping once the
remaining-slot budget is filled; a per-item failure is counted and skipped
(in this embedding `parseItem` is total, so the catch arm never fires). -/
def parseBatchGo (tempId : String) (remaining : Nat) :
    List ItemElem → List Book → List Book
  | [], acc => acc
  | it :: rest, acc =>
    if remaining ≤ acc.length then acc
    else
      match parseItem tempId it with
      | some b => parseBatchGo tempId remaining rest (acc ++ [b])
      | none => parseBatchGo tempId remaining rest acc

/-- SearchResultParser.parseItems: batches of 10, bounded by `maxResults`;
the fuel equals the item count (each outer step consumes at least one item). -/
def parseItemsGo (tempId : String) (maxResults : Nat) :
    Nat → List ItemElem → List Book → List Book
  | _, [], books => books
  | 0, _, books => books
  | Nat.succ fuel, items@(_ :: _), books =>
    if maxResults ≤ books.length then books
    else
      parseItemsGo tempId maxResults fuel (items.drop 10)
        (books ++ parseBatchGo tempId (maxResults - books.length) (items.take 10) [])

/-- SearchResultParser.parseBooks: locate candidates, fail when none are
found, otherwise map them to books. -/
def parseBooks (doc : SearchDocView) (tempId : String) (maxResults : Nat) :
    Except String (List Book) :=
  let itemElements := findResultItems doc
  if itemElements.length = 0 then .error "검색 결과 아이템을 찾을 수 없습니다"
  else .ok (parseItemsGo tempId maxResults itemElements.length itemElements [])

end Kyobo.Search


namespace Kyobo.Scenario

open Kyobo.Model Kyobo.Detail Kyobo.Service Kyobo.Search

/-- Detail link of the package listing item used against the package-exclusion
claim: a plain detail anchor carrying the set's title. -/
def c2Link : LinkView :=
  { href := "https://product.kyobobook.co.kr/detail/S1234567890"
    titleAttr := "해리포터 전집 세트", ariaLabel := "", text := "해리포터 전집 세트" }

/-- Listing container of a package product ("전집", "세트" and "시리즈"-free
text is not required: the text contains the package keywords 세트 and 전집),
found only through the link-based fallback. -/
def c2Container : ItemElem :=
  { eid := 1, className := "prod_item", visible := true
    textContent := "해리포터 전집 세트 1-7권 박스 세트 조앤 K. 롤링 문학수첩"
    links := [c2Link], lazyBid := "", titleSelText := none
    authorsResult := ["조앤 K. 롤링"], publisherResult := "문학수첩"
    publishDateResult := "", coverResult := "" }

/-- Search document on which the structural selectors match nothing, so the
parser takes the link-based ancestor-walking fallback. -/
def c2Doc : SearchDocView :=
  { structuralItems := [], bookLinks := [{ ancestors := [c2Container] }] }

/-- Book that the parser builds from the package container. -/
def c2Book : Book :=
  { id := "1234567890"
    title := "해리포터 전집 세트"
    authors := ["조앤 K. 롤링"]
    publisher := "문학수첩"
    publishDate := some ""
    language := some "ko"
    coverImageUrl := some "https://contents.kyobobook.co.kr/sih/fit-in/200x0/pdt/1234567890.jpg"
    detailPageUrl := some "https://product.kyobobook.co.kr/detail/S1234567890" }

/-- Extractor outcomes of a detail page whose only JSON-LD datum is the
malformed ISBN "12345" (every other extractor finds nothing). -/
def c3Outcomes : DetailExtractOutcomes :=
  { jsonLd := .ok (some { isbn := some "12345" }), isbn := .ok none
    description := .ok none, publisher := .ok none, publishDate := .ok none
    toc := .ok none, categories := .ok [], rating := .ok none, cover := .ok none }

/-- Stand-in for the URL-helper composition used by enrichBook's cover
fallback (its value is irrelevant to the claims). -/
def c3CoverFallback (code : String) : String :=
  "https://contents.kyobobook.co.kr/sih/fit-in/300x0/pdt/" ++ code ++ ".jpg"

/-- Book returned by the detail-enrichment flow for that page. -/
def c3EnrichedBook : Book :=
  enrichBook c3CoverFallback
    (detailBaseBook "1234567890" "https://product.kyobobook.co.kr/detail/S1234567890")
    c3Outcomes

/-- Cached record holding only a malformed short ISBN: it carries an ISBN
(the claim's enrichment notion) but fails the code's trimmed-length-10
check. -/
def c4ThinIsbnBook : Book :=
  { id := "1234567890", title := "어린 왕자", authors := [], publisher := ""
    isbn := some "12345" }

/-- Detail page view whose body text carries a page count, for the pages
cascade. -/
def c6PagesDoc : PagesDocView :=
  { pagesSelectorTexts := [], detailAreaTexts := [], labelCandidateTexts := []
    bodyText := "양장본 · 344페이지" }

/-- Extractor outcomes of that same page: nothing else is found, and there is
no pages extractor to run. -/
def c6Outcomes : DetailExtractOutcomes :=
  { jsonLd := .ok none, isbn := .ok none, description := .ok none
    publisher := .ok none, publishDate := .ok none, toc := .ok none
    categories := .ok [], rating := .ok none, cover := .ok none }

/-- Book enriched from that page. -/
def c6EnrichedBook : Book :=
  enrichBook c3CoverFallback
    (detailBaseBook "9999999999" "https://product.kyobobook.co.kr/detail/S9999999999")
    c6Outcomes

/-- Mock transport that always returns HTTP 404. -/
def c1Transport404 : Nat → Kyobo.Client.TransportResult :=
  fun _ => .resp 404 "Not Found"

/-- Cache state for the eviction counterexample: full at capacity 1, with its
single entry stored under the empty-string key. -/
def c8Entry : Kyobo.Cache.CacheEntryM Nat :=
  { value := 7, timestamp := 0, lastAccess := 0, accessCount := 1 }

/-- Non-package listing item found by the structural selectors, for the
witness of the package-exclusion theorem. -/
def c2bItem : ItemElem :=
  { eid := 2, className := "prod_item", visible := true
    textContent := "소크라테스의 변명 플라톤 지음 서울대학교출판부 2020년"
    links := [{ href := "https://product.kyobobook.co.kr/detail/S2345678901"
                titleAttr := "소크라테스의 변명", ariaLabel := "", text := "소크라테스의 변명" }]
    lazyBid := "", titleSelText := none
    authorsResult := ["플라톤"], publisherResult := "서울대학교출판부"
    publishDateResult := "2020-01-01", coverResult := "" }

/-- Search document whose structural selectors match `c2bItem`. -/
def c2bDoc : SearchDocView := { structuralItems := [c2bItem], bookLinks := [] }

/-- Book parsed from `c2bItem`. -/
def c2bBook : Book :=
  { id := "2345678901"
    title := "소크라테스의 변명"
    authors := ["플라톤"]
    publisher := "서울대학교출판부"
    publishDate := some "2020-01-01"
    language := some "ko"
    coverImageUrl := some "https://contents.kyobobook.co.kr/sih/fit-in/200x0/pdt/2345678901.jpg"
    detailPageUrl := some "https://product.kyobobook.co.kr/detail/S2345678901" }

/-- Two well-formed cache entries for the eviction witness: "old" has not
been touched since time 0, "hot" was accessed at time 100000 and 5 times. -/
def c8OldEntry : Kyobo.Cache.CacheEntryM Nat :=
  { value := 1, timestamp := 0, lastAccess := 0, accessCount := 1 }

/-- Frequently-accessed entry (see `c8OldEntry`). -/
def c8HotEntry : Kyobo.Cache.CacheEntryM Nat :=
  { value := 2, timestamp := 0, lastAccess := 100000, accessCount := 5 }

/-- Full cache (capacity 2) with distinct non-empty keys. -/
def c8GoodMap : Kyobo.Cache.CacheMap Nat := [("old", c8OldEntry), ("hot", c8HotEntry)]

end Kyobo.Scenario

namespace Kyobo

open Kyobo.TextUtils Kyobo.HtmlMd Kyobo.Toc Kyobo.Model Kyobo.Detail
open Kyobo.Service Kyobo.Client Kyobo.Search Kyobo.Scenario

/-- Helper: concrete value of the rating-number match on "4.5점". -/
theorem ratingNumber_45 : extractRatingNumber "4.5점" = some (9 / 2) := by
  have h : searchFirst ratingPatAt "4.5점".data = some ("4".data, "5".data) := by decide
  have l1 : natOfDigits "4".data = 4 := by decide
  have l2 : natOfDigits "5".data = 5 := by decide
  have l3 : ("5".data).length = 1 := by decide
  simp [extractRatingNumber, h, floatOfParts, l1, l2, l3]
  norm_num

/-- Helper: concrete value of the rating-number match on "8.5점". -/
theorem ratingNumber_85 : extractRatingNumber "8.5점" = some (17 / 2) := by
  have h : searchFirst ratingPatAt "8.5점".data = some ("8".data, "5".data) := by decide
  have l1 : natOfDigits "8".data = 8 := by decide
  have l2 : natOfDigits "5".data = 5 := by decide
  have l3 : ("5".data).length = 1 := by decide
  simp [extractRatingNumber, h, floatOfParts, l1, l2, l3]
  norm_num

/-- C7: rating extraction matches the first number against
`(\d+\.?\d*)\s*점?`; a matched value at most 5 is doubled, a value in (5,10]
is returned unchanged, and a value above 10 yields no rating — in particular
"4.5점" gives rating 9 and "8.5점" gives rating 8.5. -/
theorem C7_rating_normalization :
    extractRating "4.5점" = some 9 ∧
    extractRating "8.5점" = some (17 / 2) ∧
    ∀ (text : String) (v : ℚ), extractRatingNumber text = some v →
      (v ≤ 5 → extractRating text = some (v * 2)) ∧
      (5 < v → v ≤ 10 → extractRating text = some v) ∧
      (10 < v → extractRating text = none) := by
  refine ⟨?_, ?_, ?_⟩
  · rw [extractRating, ratingNumber_45]
    norm_num
  · rw [extractRating, ratingNumber_85]
    norm_num
  · intro text v h
    rw [extractRating, h]
    refine ⟨fun h5 => ?_, fun h5 h10 => ?_, fun h10 => ?_⟩
    · simp [h5]
    · show (if v ≤ 5 then some (v * 2) else if v ≤ 10 then some v else none) = some v
      rw [if_neg (by linarith), if_pos h10]
    · show (if v ≤ 5 then some (v * 2) else if v ≤ 10 then some v else none) = none
      rw [if_neg (by linarith), if_neg (by linarith)]

/-- Witness for C7 at the concrete text "4.5점" (rating number 9/2 ≤ 5). -/
theorem C7_rating_normalization_witness :
    extractRatingNumber "4.5점" = some (9 / 2) ∧ extractRating "4.5점" = some (9 / 2 * 2) :=
  ⟨ratingNumber_45,
    ((C7_rating_normalization.2.2 "4.5점" (9 / 2) ratingNumber_45).1 (by norm_num))⟩

/-- C5 counterexample: for the scenario document — heading "목차" followed by
the sibling `<div>1장 서론<br>1.1 배경</div>` — the extracted table of
contents is "1장 서론\n1.1 배경", not the claimed "1장 서론\n  1.1 배경":
the subheading line is not indented. -/
theorem C5_counterexample :
    extractTocHeadingNextSibling tocScenarioView = some "1장 서론\n1.1 배경" ∧
    extractTocHeadingNextSibling tocScenarioView ≠ some "1장 서론\n  1.1 배경" := by
  constructor
  · decide
  · decide

/-- C5 (amended): for the scenario heading "목차" with sibling
`<div>1장 서론<br>1.1 배경</div>`, the extracted table of contents equals
"1장 서론\n1.1 배경" with both lines unindented, because the line
"1.1 배경" matches the chapter-heading alternative `\d+\.` before the
subheading rule (which would indent it) is consulted. -/
theorem C5_toc_formatting :
    extractTocHeadingNextSibling tocScenarioView = some "1장 서론\n1.1 배경" ∧
    chapterLineTest "1.1 배경" = true ∧
    subheadingLineTest "1.1 배경" = true := by
  refine ⟨by decide, by decide, by decide⟩

end Kyobo

namespace Kyobo

open Kyobo.TextUtils Kyobo.HtmlMd Kyobo.Toc Kyobo.Model Kyobo.Detail
open Kyobo.Service Kyobo.Client Kyobo.Search Kyobo.Scenario

/-- Helper: an accepted page count lies strictly between 0 and 5000. -/
theorem acceptPages_range {o : Option Nat} {n : Nat} (h : acceptPages o = some n) :
    0 < n ∧ n < 5000 := by
  cases o with
  | none => simp [acceptPages] at h
  | some num =>
    by_cases hc : 0 < num ∧ num < 5000
    · simp [acceptPages, hc] at h
      omega
    · simp [acceptPages, hc] at h

/-- Helper: every value TextUtils.extractPages returns lies strictly between
0 and 5000. -/
theorem extractPages_range {t : String} {n : Nat} (h : extractPages t = some n) :
    0 < n ∧ n < 5000 := by
  by_cases ht : t = ""
  · simp [extractPages, ht] at h
  · rw [extractPages, if_neg ht] at h
    rcases h1 : acceptPages (searchFirst pagesPat1 t.data) with _ | n1 <;> rw [h1] at h
    · rcases h2 : acceptPages (searchFirst pagesPat2 t.data) with _ | n2 <;> rw [h2] at h
      · rcases h3 : acceptPages (searchFirst pagesPat3 t.data) with _ | n3 <;> rw [h3] at h
        · exact acceptPages_range h
        · cases h; exact acceptPages_range h3
      · cases h; exact acceptPages_range h2
    · cases h; exact acceptPages_range h1

/-- Helper: `findSome?` over extractPages only yields in-range values. -/
theorem findSome_extractPages_range {ts : List String} {n : Nat}
    (h : ts.findSome? extractPages = some n) : 0 < n ∧ n < 5000 := by
  induction ts with
  | nil => simp at h
  | cons t ts ih =>
    rw [List.findSome?_cons] at h
    rcases he : extractPages t with _ | m <;> rw [he] at h
    · exact ih h
    · cases h; exact extractPages_range he

/-- Helper: the full pages cascade only yields in-range values. -/
theorem extractPagesCascade_range {d : PagesDocView} {n : Nat}
    (h : extractPagesCascade d = some n) : 0 < n ∧ n < 5000 := by
  rw [extractPagesCascade] at h
  rcases h1 : d.pagesSelectorTexts.findSome? extractPages with _ | n1 <;> rw [h1] at h
  · rcases h2 : d.detailAreaTexts.findSome? extractPages with _ | n2 <;> rw [h2] at h
    · rcases h3 : (d.labelCandidateTexts.filter
          (fun t => !(t == "") && pagesLabelTest t)).findSome? extractPages with _ | n3 <;>
        rw [h3] at h
      · exact extractPages_range h
      · cases h; exact findSome_extractPages_range h3
    · cases h; exact findSome_extractPages_range h2
  · cases h; exact findSome_extractPages_range h1

/-- Helper: the JSON-LD seeding step never touches the pages field. -/
theorem stepJsonLd_pages (s : DetailAcc) (e : Except String (Option JsonLdView)) :
    (stepJsonLd s e).1.pages = s.1.pages := by
  unfold stepJsonLd
  cases e with
  | error m => rfl
  | ok o =>
    cases o with
    | none => rfl
    | some ld =>
      dsimp only
      (repeat' split) <;> rfl

/-- Helper: a string-field step whose setter leaves pages alone leaves pages
alone. -/
theorem stepStrField_pages (tag : String) (set : UpdateBookInput → String → UpdateBookInput)
    (s : DetailAcc) (e : Except String (Option String))
    (hset : ∀ u v, (set u v).pages = u.pages) :
    (stepStrField tag set s e).1.pages = s.1.pages := by
  cases e with
  | error m => rfl
  | ok r =>
    simp only [stepStrField]
    cases hr : strTruthy r with
    | none => rfl
    | some v => simpa using hset s.1 v

/-- Helper: the categories step never touches the pages field. -/
theorem stepCategories_pages (s : DetailAcc) (e : Except String (List String)) :
    (stepCategories s e).1.pages = s.1.pages := by
  unfold stepCategories
  cases e with
  | error m => rfl
  | ok cs =>
    dsimp only
    split <;> rfl

/-- Helper: the rating step never touches the pages field. -/
theorem stepRating_pages (s : DetailAcc) (e : Except String (Option ℚ)) :
    (stepRating s e).1.pages = s.1.pages := by
  unfold stepRating
  cases e with
  | error m => rfl
  | ok r => cases r <;> rfl

/-- Helper: the updates record built by extractDetailedInfo never carries a
pages value — the source's pages step is disabled. -/
theorem extractDetailedInfo_pages (o : DetailExtractOutcomes) :
    (extractDetailedInfo o).1.pages = none := by
  unfold extractDetailedInfo
  dsimp only
  rw [stepStrField_pages, stepRating_pages, stepCategories_pages, stepStrField_pages,
    stepStrField_pages, stepStrField_pages, stepStrField_pages, stepStrField_pages,
    stepJsonLd_pages]
  all_goals first
    | rfl
    | (intro u v; rfl)

/-- Helper: an update with no pages value leaves the book's pages. -/
theorem update_pages_of_none (book : Book) (u : UpdateBookInput) (h : u.pages = none) :
    (BookFactory.update book u).pages = book.pages := by
  simp [BookFactory.update, h]

/-- Helper: enrichBook never changes the pages field of the book. -/
theorem enrichBook_pages (cf : String → String) (book : Book)
    (o : DetailExtractOutcomes) : (enrichBook cf book o).pages = book.pages := by
  unfold enrichBook
  dsimp only
  apply update_pages_of_none
  split
  · exact extractDetailedInfo_pages o
  · exact extractDetailedInfo_pages o

/-- C6 counterexample: on a detail page whose body reads
"양장본 · 344페이지" the pages cascade yields 344 ∈ (0,5000), yet the book
returned by the enrichment flow has no pages value — the claim's "set exactly
when the cascade yields such a value" is false because extractDetailedInfo
never invokes the cascade. -/
theorem C6_counterexample :
    extractPagesCascade c6PagesDoc = some 344 ∧
    c6EnrichedBook.pages = none := by
  constructor
  · decide
  · decide

/-- C6 (amended): BookDetailParser.extractPages implements the four-stage
cascade (field selectors, broadened container scan, label-proximity scan,
full-body regex) and accepts only values strictly between 0 and 5000 — but
extractDetailedInfo never invokes it (the pages step is disabled with an
explanatory comment), so detail enrichment always leaves the book's pages
field unchanged and never sets it. -/
theorem C6_pages_cascade :
    (∀ (d : PagesDocView) (n : Nat), extractPagesCascade d = some n → 0 < n ∧ n < 5000) ∧
    (∀ (cf : String → String) (book : Book) (o : DetailExtractOutcomes),
      (enrichBook cf book o).pages = book.pages) ∧
    (∀ (o : DetailExtractOutcomes), (extractDetailedInfo o).1.pages = none) := by
  exact ⟨fun d n h => extractPagesCascade_range h,
    fun cf book o => enrichBook_pages cf book o,
    fun o => extractDetailedInfo_pages o⟩

/-- Witness for C6 at the concrete scenario page: the cascade yields 344 and
the bound holds; the enrichment leaves the base book's (absent) pages. -/
theorem C6_pages_cascade_witness :
    (0 < 344 ∧ 344 < 5000) ∧ c6EnrichedBook.pages = none :=
  ⟨C6_pages_cascade.1 c6PagesDoc 344 (by decide),
    C6_pages_cascade.2.1 c3CoverFallback
      (detailBaseBook "9999999999" "https://product.kyobobook.co.kr/detail/S9999999999")
      c6Outcomes⟩

end Kyobo

namespace Kyobo

open Kyobo.Model Kyobo.Service Kyobo.Scenario

/-- Helper: the code's enrichment test is stronger than the claim's — a
record passing the code's check also carries enrichment in the claim's
sense. -/
theorem hasEnriched_imp_claim (b : Book) :
    hasEnrichedDetail b = true → claimEnriched b = true := by
  unfold hasEnrichedDetail claimEnriched
  rcases b with ⟨i, ti, au, pu, st, pd, isbn, pages, lang, desc, toc, cats, rat, cov, dp, tg⟩
  dsimp only
  cases desc <;> cases toc <;> cases isbn <;> cases pages <;>
    simp_all [Bool.or_eq_true, Bool.and_eq_true] <;> tauto

/-- C4 counterexample: a cached record whose only datum is the malformed
5-character ISBN "12345" carries enrichment in the claim's sense (it has an
ISBN), yet getBookDetail treats the hit as a miss and takes the fresh-fetch
path, because the code requires a trimmed ISBN length of at least 10. -/
theorem C4_counterexample :
    claimEnriched c4ThinIsbnBook = true ∧
    detailCachePath (some c4ThinIsbnBook) = .fetch := by
  constructor
  · decide
  · decide

/-- C4 (amended): a cached detail:<id> record lacking enrichment — no
non-empty description, no non-empty table of contents, no ISBN, no positive
page count — is never returned: the call proceeds to a fresh fetch;
conversely a record passing the code's enrichment check (non-empty trimmed
description or TOC, an ISBN of trimmed length ≥ 10, or positive pages) is
returned without any fetch, and one failing it is re-fetched. -/
theorem C4_thin_cache_rejection (b : Book) :
    (claimEnriched b = false → detailCachePath (some b) = .fetch) ∧
    (hasEnrichedDetail b = true → detailCachePath (some b) = .cached b) ∧
    (hasEnrichedDetail b = false → detailCachePath (some b) = .fetch) := by
  refine ⟨fun hc => ?_, fun h => ?_, fun h => ?_⟩
  · have h : hasEnrichedDetail b = false := by
      cases he : hasEnrichedDetail b
      · rfl
      · exact absurd (hasEnriched_imp_claim b he) (by simp [hc])
    simp [detailCachePath, h]
  · simp [detailCachePath, h]
  · simp [detailCachePath, h]

/-- Witness for C4 at the thin cached record `c4ThinIsbnBook` (fails the
code's enrichment check, so the fetch path is taken). -/
theorem C4_thin_cache_rejection_witness :
    detailCachePath (some c4ThinIsbnBook) = .fetch :=
  (C4_thin_cache_rejection c4ThinIsbnBook).2.2 (by decide)

end Kyobo

namespace Kyobo

open Kyobo.Client Kyobo.Scenario

/-- Helper: when every attempt from `attempt` through `retries` fails, the
retry loop runs them all, sleeping the exponential backoffs, and gives up
with the last error. -/
theorem retryGo_allFail (transport : Nat → TransportResult) (retries : Nat) :
    ∀ (fuel attempt : Nat) (lastErr : Option ReqError) (acc : List Nat),
    attempt + fuel = retries + 1 → 1 ≤ attempt → attempt ≤ retries →
    (∀ i, attempt ≤ i → i ≤ retries → ∃ e, executeRequest (transport i) = .error e) →
    ∃ e, executeWithRetryGo transport retries fuel attempt lastErr acc =
      { result := .error (some e), attempts := retries,
        backoffsMs := acc ++
          (List.range (retries - attempt)).map (fun j => 1000 * 2 ^ (attempt - 1 + j)) } := by
  intro fuel
  induction fuel with
  | zero => intro attempt lastErr acc h1 h2 h3 _; omega
  | succ f ih =>
    intro attempt lastErr acc h1 h2 h3 hfail
    obtain ⟨e, he⟩ := hfail attempt le_rfl h3
    by_cases hlt : attempt < retries
    · obtain ⟨e2, he2⟩ := ih (attempt + 1) (some e) (acc ++ [1000 * 2 ^ (attempt - 1)])
        (by omega) (by omega) (by omega)
        (fun i hi1 hi2 => hfail i (by omega) hi2)
      refine ⟨e2, ?_⟩
      rw [executeWithRetryGo, he]
      dsimp only
      rw [if_pos hlt, he2]
      have hn : retries - attempt = (retries - (attempt + 1)) + 1 := by omega
      have hfun : (fun j => 1000 * 2 ^ (attempt - 1 + Nat.succ j)) =
          (fun j => 1000 * 2 ^ (attempt + 1 - 1 + j)) := by
        funext j
        congr 2
        omega
      rw [hn, List.range_succ_eq_map, List.map_cons, List.map_map]
      simp only [Function.comp_def]
      rw [hfun]
      simp
    · have hae : attempt = retries := by omega
      refine ⟨e, ?_⟩
      rw [executeWithRetryGo, he]
      dsimp only
      rw [if_neg hlt, hae]
      simp

/-- Helper: when the first success happens at attempt `k ≤ retries`, the
loop stops there with that response. -/
theorem retryGo_firstOk (transport : Nat → TransportResult) (retries : Nat) :
    ∀ (fuel attempt : Nat) (lastErr : Option ReqError) (acc : List Nat) (k : Nat)
      (r : HttpResp),
    attempt + fuel = retries + 1 → 1 ≤ attempt → attempt ≤ k → k ≤ retries →
    (∀ i, attempt ≤ i → i < k → ∃ e, executeRequest (transport i) = .error e) →
    executeRequest (transport k) = .ok r →
    executeWithRetryGo transport retries fuel attempt lastErr acc =
      { result := .ok r, attempts := k,
        backoffsMs := acc ++
          (List.range (k - attempt)).map (fun j => 1000 * 2 ^ (attempt - 1 + j)) } := by
  intro fuel
  induction fuel with
  | zero => intro attempt lastErr acc k r h1 h2 h3 h4 _ _; omega
  | succ f ih =>
    intro attempt lastErr acc k r h1 h2 h3 h4 hfail hok
    by_cases hak : attempt = k
    · subst hak
      rw [executeWithRetryGo, hok]
      simp
    · obtain ⟨e, he⟩ := hfail attempt le_rfl (by omega)
      have hlt : attempt < retries := by omega
      rw [executeWithRetryGo, he]
      dsimp only
      rw [if_pos hlt]
      rw [ih (attempt + 1) (some e) (acc ++ [1000 * 2 ^ (attempt - 1)]) k r
        (by omega) (by omega) (by omega) h4
        (fun i hi1 hi2 => hfail i (by omega) hi2) hok]
      have hn : k - attempt = (k - (attempt + 1)) + 1 := by omega
      have hfun : (fun j => 1000 * 2 ^ (attempt - 1 + Nat.succ j)) =
          (fun j => 1000 * 2 ^ (attempt + 1 - 1 + j)) := by
        funext j
        congr 2
        omega
      rw [hn, List.range_succ_eq_map, List.map_cons, List.map_map]
      simp only [Function.comp_def]
      rw [hfun]
      simp

/-- C1 counterexample: a transport that always returns HTTP 404 is retried
like any other failure — `get` with the default 3 attempts executes exactly
3 attempts (not 1) with backoffs 1s and 2s before failing. -/
theorem C1_counterexample :
    (executeWithRetry c1Transport404 3).attempts = 3 ∧
    (executeWithRetry c1Transport404 3).attempts ≠ 1 ∧
    (executeWithRetry c1Transport404 3).backoffsMs = [1000, 2000] ∧
    (executeWithRetry c1Transport404 3).result = .error (some (.httpStatus 404)) := by
  refine ⟨by decide, by decide, by decide, rfl⟩

/-- C1 (amended): every failed attempt — network error, timeout surrogate,
and any non-2xx status including 404 — is retried with exponential backoff
(1000·2^(i−1) ms, i.e. 1s then 2s for the default 3 attempts); there is no
non-retryable 4xx class.  A transport failing on every attempt exhausts
exactly `retries` attempts; a transport first succeeding at attempt k ≤
retries stops after exactly k attempts. -/
theorem C1_retry_all_errors (transport : Nat → TransportResult) (retries : Nat)
    (hr : 1 ≤ retries) :
    ((∀ i, 1 ≤ i → i ≤ retries → ∃ e, executeRequest (transport i) = .error e) →
      ∃ e, executeWithRetry transport retries =
        { result := .error (some e), attempts := retries,
          backoffsMs := (List.range (retries - 1)).map (fun j => 1000 * 2 ^ j) }) ∧
    (∀ (k : Nat) (r : HttpResp), 1 ≤ k → k ≤ retries →
      (∀ i, 1 ≤ i → i < k → ∃ e, executeRequest (transport i) = .error e) →
      executeRequest (transport k) = .ok r →
      executeWithRetry transport retries =
        { result := .ok r, attempts := k,
          backoffsMs := (List.range (k - 1)).map (fun j => 1000 * 2 ^ j) }) := by
  constructor
  · intro hfail
    obtain ⟨e, he⟩ := retryGo_allFail transport retries retries 1 none []
      (by omega) le_rfl hr hfail
    exact ⟨e, by simpa using he⟩
  · intro k r hk1 hk2 hfail hok
    have h := retryGo_firstOk transport retries retries 1 none [] k r
      (by omega) le_rfl hk1 hk2 hfail hok
    simpa using h

/-- Witness for C1 at the always-404 transport and the default 3 attempts. -/
theorem C1_retry_all_errors_witness :
    ∃ e, executeWithRetry c1Transport404 3 =
      { result := .error (some e), attempts := 3,
        backoffsMs := (List.range 2).map (fun j => 1000 * 2 ^ j) } :=
  (C1_retry_all_errors c1Transport404 3 (by decide)).1
    (fun i _ _ => ⟨.httpStatus 404, rfl⟩)

end Kyobo

namespace Kyobo

open Kyobo.Model Kyobo.Detail Kyobo.Service Kyobo.Scenario

/-- Helper: the factory's rating guard only lets through values in [0,10]. -/
theorem validRating_range {o : Option ℚ} {r : ℚ} (h : validRating o = some r) :
    0 ≤ r ∧ r ≤ 10 := by
  cases o with
  | none => simp [validRating] at h
  | some q =>
    by_cases hc : q ≠ 0 ∧ 0 ≤ q ∧ q ≤ 10
    · rw [validRating, if_pos hc] at h
      cases h
      exact ⟨hc.2.1, hc.2.2⟩
    · rw [validRating, if_neg hc] at h
      cases h

/-- Helper: the factory's pages guard only lets through positive values. -/
theorem validPages_pos {o : Option Int} {p : Int} (h : validPages o = some p) :
    0 < p := by
  cases o with
  | none => simp [validPages] at h
  | some n =>
    by_cases hc : n ≠ 0 ∧ 0 < n
    · rw [validPages, if_pos hc] at h
      cases h
      exact hc.2
    · rw [validPages, if_neg hc] at h
      cases h

/-- C3 counterexample: the detail-enrichment flow returns a Book violating
two of the claimed invariants — enriching the service's base record (built
with an empty title) from a page whose JSON-LD carries the malformed ISBN
"12345" yields a Book with an empty title and an ISBN of length 5 (the
JSON-LD ISBN step falls back to the raw value when normalisation rejects it,
and neither factory operation validates title or ISBN). -/
theorem C3_counterexample :
    c3EnrichedBook.title = "" ∧
    c3EnrichedBook.isbn = some "12345" ∧
    jsLength "12345" ≠ 10 ∧ jsLength "12345" ≠ 13 := by
  refine ⟨by decide, by decide, by decide, by decide⟩

/-- C3 (amended): the factory enforces the rating and pages invariants —
every Book built by BookFactory.create or BookFactory.update has rating
absent or in [0,10] and pages absent or strictly positive — but it performs
no ISBN-length validation and accepts an empty title, so the isbn-length and
title-non-emptiness parts of the claimed invariant do not hold of the
parsing pipeline's output. -/
theorem C3_factory_invariants :
    (∀ (input : CreateBookInput) (r : ℚ),
      (BookFactory.create input).rating = some r → 0 ≤ r ∧ r ≤ 10) ∧
    (∀ (input : CreateBookInput) (p : Int),
      (BookFactory.create input).pages = some p → 0 < p) ∧
    (∀ (book : Book) (updates : UpdateBookInput) (r : ℚ),
      (∀ r0, book.rating = some r0 → 0 ≤ r0 ∧ r0 ≤ 10) →
      (BookFactory.update book updates).rating = some r → 0 ≤ r ∧ r ≤ 10) ∧
    (∀ (book : Book) (updates : UpdateBookInput) (p : Int),
      (∀ p0, book.pages = some p0 → 0 < p0) →
      (BookFactory.update book updates).pages = some p → 0 < p) := by
  refine ⟨fun input r h => validRating_range h, fun input p h => validPages_pos h,
    fun book updates r hb h => ?_, fun book updates p hb h => ?_⟩
  · rcases hu : updates.rating with _ | q
    · rw [BookFactory.update] at h
      dsimp only at h
      rw [hu] at h
      exact hb r h
    · rw [BookFactory.update] at h
      dsimp only at h
      rw [hu] at h
      exact validRating_range h
  · rcases hu : updates.pages with _ | n
    · rw [BookFactory.update] at h
      dsimp only at h
      rw [hu] at h
      exact hb p h
    · rw [BookFactory.update] at h
      dsimp only at h
      rw [hu] at h
      exact validPages_pos h

/-- Witness for C3 at the enriched counterexample book (its rating and pages
are absent, so the guarded implications hold at a concrete create input with
rating 4.5). -/
theorem C3_factory_invariants_witness :
    0 ≤ (9 : ℚ) / 2 ∧ (9 : ℚ) / 2 ≤ 10 :=
  C3_factory_invariants.1
    { id := "1", title := "책", authors := [], publisher := "", rating := some (9 / 2) }
    (9 / 2) (by norm_num [BookFactory.create, validRating])

end Kyobo

namespace Kyobo

open Kyobo.Model Kyobo.Detail Kyobo.Scenario

/-- Helper: the JSON-LD step appends exactly its own error tag. -/
theorem stepJsonLd_errs (s : DetailAcc) (e : Except String (Option JsonLdView)) :
    (stepJsonLd s e).2 = s.2 ++ errTag "JSON-LD: " e := by
  unfold stepJsonLd
  cases e with
  | error m => simp [errTag]
  | ok o =>
    cases o with
    | none => simp [errTag]
    | some ld =>
      dsimp only
      simp [errTag]

/-- Helper: a string-field step appends exactly its own error tag. -/
theorem stepStrField_errs (tag : String) (set : UpdateBookInput → String → UpdateBookInput)
    (s : DetailAcc) (e : Except String (Option String)) :
    (stepStrField tag set s e).2 = s.2 ++ errTag tag e := by
  unfold stepStrField
  cases e with
  | error m => simp [errTag]
  | ok r => cases hr : strTruthy r <;> simp [errTag, hr]

/-- Helper: the categories step appends exactly its own error tag. -/
theorem stepCategories_errs (s : DetailAcc) (e : Except String (List String)) :
    (stepCategories s e).2 = s.2 ++ errTag "Categories: " e := by
  unfold stepCategories
  cases e with
  | error m => simp [errTag]
  | ok cs =>
    dsimp only
    split <;> simp [errTag]

/-- Helper: the rating step appends exactly its own error tag. -/
theorem stepRating_errs (s : DetailAcc) (e : Except String (Option ℚ)) :
    (stepRating s e).2 = s.2 ++ errTag "Rating: " e := by
  unfold stepRating
  cases e with
  | error m => simp [errTag]
  | ok r => cases r <;> simp [errTag]

/-- Helper: the JSON-LD step never touches the rating field. -/
theorem stepJsonLd_rating (s : DetailAcc) (e : Except String (Option JsonLdView)) :
    (stepJsonLd s e).1.rating = s.1.rating := by
  unfold stepJsonLd
  cases e with
  | error m => rfl
  | ok o =>
    cases o with
    | none => rfl
    | some ld =>
      dsimp only
      (repeat' split) <;> rfl

/-- Helper: a string-field step with a rating-preserving setter preserves
rating. -/
theorem stepStrField_rating (tag : String) (set : UpdateBookInput → String → UpdateBookInput)
    (s : DetailAcc) (e : Except String (Option String))
    (hset : ∀ u v, (set u v).rating = u.rating) :
    (stepStrField tag set s e).1.rating = s.1.rating := by
  cases e with
  | error m => rfl
  | ok r =>
    simp only [stepStrField]
    cases hr : strTruthy r with
    | none => rfl
    | some v => simpa using hset s.1 v

/-- Helper: the categories step never touches the rating field. -/
theorem stepCategories_rating (s : DetailAcc) (e : Except String (List String)) :
    (stepCategories s e).1.rating = s.1.rating := by
  unfold stepCategories
  cases e with
  | error m => rfl
  | ok cs =>
    dsimp only
    split <;> rfl

/-- Helper: the rating step stores exactly its own outcome. -/
theorem stepRating_value (s : DetailAcc) (e : Except String (Option ℚ)) :
    (stepRating s e).1.rating = (match e with
      | .ok (some r) => some r
      | _ => s.1.rating) := by
  unfold stepRating
  cases e with
  | error m => rfl
  | ok r => cases r <;> rfl

/-- Helper: the JSON-LD step never touches the table-of-contents field. -/
theorem stepJsonLd_toc (s : DetailAcc) (e : Except String (Option JsonLdView)) :
    (stepJsonLd s e).1.tableOfContents = s.1.tableOfContents := by
  unfold stepJsonLd
  cases e with
  | error m => rfl
  | ok o =>
    cases o with
    | none => rfl
    | some ld =>
      dsimp only
      (repeat' split) <;> rfl

/-- Helper: a string-field step with a TOC-preserving setter preserves the
table of contents. -/
theorem stepStrField_toc (tag : String) (set : UpdateBookInput → String → UpdateBookInput)
    (s : DetailAcc) (e : Except String (Option String))
    (hset : ∀ u v, (set u v).tableOfContents = u.tableOfContents) :
    (stepStrField tag set s e).1.tableOfContents = s.1.tableOfContents := by
  cases e with
  | error m => rfl
  | ok r =>
    simp only [stepStrField]
    cases hr : strTruthy r with
    | none => rfl
    | some v => simpa using hset s.1 v

/-- Helper: the categories step never touches the table of contents. -/
theorem stepCategories_toc (s : DetailAcc) (e : Except String (List String)) :
    (stepCategories s e).1.tableOfContents = s.1.tableOfContents := by
  unfold stepCategories
  cases e with
  | error m => rfl
  | ok cs =>
    dsimp only
    split <;> rfl

/-- Helper: the rating step never touches the table of contents. -/
theorem stepRating_toc (s : DetailAcc) (e : Except String (Option ℚ)) :
    (stepRating s e).1.tableOfContents = s.1.tableOfContents := by
  unfold stepRating
  cases e with
  | error m => rfl
  | ok r => cases r <;> rfl

/-- Helper: the TOC step stores exactly its own (truthy) outcome. -/
theorem stepStrField_set_toc (s : DetailAcc) (e : Except String (Option String)) :
    (stepStrField "TOC: " (fun u v => { u with tableOfContents := some v }) s e).1.tableOfContents =
      (match e with
      | .ok r => (match strTruthy r with
        | some v => some v
        | none => s.1.tableOfContents)
      | .error _ => s.1.tableOfContents) := by
  cases e with
  | error m => rfl
  | ok r =>
    simp only [stepStrField]
    cases hr : strTruthy r with
    | none => rfl
    | some v => rfl

/-- Helper: the rating stored in the updates record is precisely the rating
extractor's outcome, whatever the other extractors did. -/
theorem extractDetailedInfo_rating (o : DetailExtractOutcomes) :
    (extractDetailedInfo o).1.rating = (match o.rating with
      | .ok (some r) => some r
      | _ => none) := by
  unfold extractDetailedInfo
  dsimp only
  rw [stepStrField_rating, stepRating_value]
  · have hnone :
        (stepCategories (stepStrField "TOC: " (fun u v => { u with tableOfContents := some v })
          (stepStrField "PublishDate: " (fun u v => { u with publishDate := some v })
            (stepStrField "Publisher: " (fun u v => { u with publisher := some v })
              (stepStrField "Description: " (fun u v => { u with description := some v })
                (stepStrField "ISBN: " (fun u v => { u with isbn := some v })
                  (stepJsonLd ({}, []) o.jsonLd) o.isbn) o.description) o.publisher)
            o.publishDate) o.toc) o.categories).1.rating = none := by
      rw [stepCategories_rating, stepStrField_rating, stepStrField_rating, stepStrField_rating,
        stepStrField_rating, stepStrField_rating, stepJsonLd_rating]
      all_goals first
        | rfl
        | (intro u v; rfl)
    rw [hnone]
  · intro u v
    rfl

/-- Helper: the table of contents stored in the updates record is precisely
the TOC extractor's (truthy) outcome, whatever the other extractors did. -/
theorem extractDetailedInfo_toc (o : DetailExtractOutcomes) :
    (extractDetailedInfo o).1.tableOfContents = (match o.toc with
      | .ok r => strTruthy r
      | .error _ => none) := by
  unfold extractDetailedInfo
  dsimp only
  rw [stepStrField_toc, stepRating_toc, stepCategories_toc, stepStrField_set_toc]
  · have hnone :
        (stepStrField "PublishDate: " (fun u v => { u with publishDate := some v })
          (stepStrField "Publisher: " (fun u v => { u with publisher := some v })
            (stepStrField "Description: " (fun u v => { u with description := some v })
              (stepStrField "ISBN: " (fun u v => { u with isbn := some v })
                (stepJsonLd ({}, []) o.jsonLd) o.isbn) o.description) o.publisher)
          o.publishDate).1.tableOfContents = none := by
      rw [stepStrField_toc, stepStrField_toc, stepStrField_toc, stepStrField_toc, stepJsonLd_toc]
      all_goals first
        | rfl
        | (intro u v; rfl)
    rw [hnone]
    cases o.toc with
    | error m => rfl
    | ok r => cases hr : strTruthy r <;> simp [hr]
  · intro u v
    rfl

/-- Helper: the collected error list of extractDetailedInfo is exactly the
tags of the failed extractors, in execution order. -/
theorem extractDetailedInfo_errs (o : DetailExtractOutcomes) :
    (extractDetailedInfo o).2 =
      errTag "JSON-LD: " o.jsonLd ++ errTag "ISBN: " o.isbn ++
      errTag "Description: " o.description ++ errTag "Publisher: " o.publisher ++
      errTag "PublishDate: " o.publishDate ++ errTag "TOC: " o.toc ++
      errTag "Categories: " o.categories ++ errTag "Rating: " o.rating ++
      errTag "Cover: " o.cover := by
  unfold extractDetailedInfo
  dsimp only
  rw [stepStrField_errs, stepRating_errs, stepCategories_errs, stepStrField_errs,
    stepStrField_errs, stepStrField_errs, stepStrField_errs, stepStrField_errs,
    stepJsonLd_errs]
  simp [List.append_assoc]

/-- Helper: the rating stored by BookFactory.update. -/
theorem update_rating_eq (book : Book) (u : UpdateBookInput) :
    (BookFactory.update book u).rating = (match u.rating with
      | some _ => validRating u.rating
      | none => book.rating) := rfl

/-- Helper: the rating of the enriched book is governed solely by the rating
extractor's outcome (the cover-fallback patch never touches it). -/
theorem enrichBook_rating (cf : String → String) (book : Book)
    (o : DetailExtractOutcomes) :
    (enrichBook cf book o).rating = (match o.rating with
      | .ok (some r) => validRating (some r)
      | _ => book.rating) := by
  unfold enrichBook
  dsimp only
  split <;>
    (rw [update_rating_eq]
     try dsimp only
     rw [extractDetailedInfo_rating]
     cases ho : o.rating with
     | error m => rfl
     | ok r => cases r <;> rfl)

/-- C9: every individual field extractor's exception inside BookDetailParser
is caught and appended to the per-call error list without preventing the
remaining extractors from running — the error list is exactly the ordered
tags of the failed extractors, and each stored field depends only on its own
extractor's outcome (shown for rating and table of contents, including the
rating's survival into the final merged Book); the try/catch of enrichBook
wraps a body that is total — every extractor exception is already caught and
the merge is a total record update — so enrichBook never throws (its
ParseError branch, which would carry the book id and the original error, is
unreachable). -/
theorem C9_error_policy (o : DetailExtractOutcomes) (book : Book)
    (cf : String → String) :
    (extractDetailedInfo o).2 =
      errTag "JSON-LD: " o.jsonLd ++ errTag "ISBN: " o.isbn ++
      errTag "Description: " o.description ++ errTag "Publisher: " o.publisher ++
      errTag "PublishDate: " o.publishDate ++ errTag "TOC: " o.toc ++
      errTag "Categories: " o.categories ++ errTag "Rating: " o.rating ++
      errTag "Cover: " o.cover ∧
    (extractDetailedInfo o).1.rating = (match o.rating with
      | .ok (some r) => some r
      | _ => none) ∧
    (extractDetailedInfo o).1.tableOfContents = (match o.toc with
      | .ok r => strTruthy r
      | .error _ => none) ∧
    (enrichBook cf book o).rating = (match o.rating with
      | .ok (some r) => validRating (some r)
      | _ => book.rating) :=
  ⟨extractDetailedInfo_errs o, extractDetailedInfo_rating o,
    extractDetailedInfo_toc o, enrichBook_rating cf book o⟩

end Kyobo

namespace Kyobo

open Kyobo.Model Kyobo.Service Kyobo.Scenario

/-- Helper: a string prefixed by `pre` starts with `pre`. -/
theorem listPrefixOf_append (p t : List Char) : listPrefixOf p (p ++ t) = true := by
  induction p with
  | nil => rfl
  | cons c cs ih => simpa [listPrefixOf] using ih

/-- Helper: keys after a book-cache write are old keys or the written key. -/
theorem bookCacheSet_keys (c : List (String × Book)) (key : String) (b : Book)
    (k : String) (h : (bookCacheSet c key b).any (fun p => p.1 == k) = true) :
    c.any (fun p => p.1 == k) = true ∨ k = key := by
  unfold bookCacheSet at h
  split at h
  · left
    rw [List.any_map] at h
    have : ((fun (p : String × Book) => p.1 == k) ∘
        (fun p => if p.1 == key then (p.1, b) else p)) = (fun p => p.1 == k) := by
      funext p
      by_cases hp : p.1 == key <;> simp [Function.comp, hp]
    rwa [this] at h
  · rw [List.any_append] at h
    rcases (Bool.or_eq_true _ _).mp h with h1 | h2
    · exact Or.inl h1
    · right
      simp at h2
      exact h2.symm

end Kyobo

namespace Kyobo

open Kyobo.Model Kyobo.Service Kyobo.Scenario

/-- Helper: keys after one enrichment step are old keys or detail-prefixed. -/
theorem enrichStep_keys (outcome : Book → Option (Book × Bool))
    (c : List (String × Book)) (b : Book) (k : String)
    (h : (enrichStep outcome c b).2.any (fun p => p.1 == k) = true) :
    c.any (fun p => p.1 == k) = true ∨ jsStartsWith k "detail:" = true := by
  unfold enrichStep at h
  rcases ho : outcome b with _ | ⟨b2, wrote⟩ <;> rw [ho] at h
  · exact Or.inl h
  · dsimp only at h
    rcases wrote with _ | _
    · exact Or.inl h
    · rcases bookCacheSet_keys _ _ _ _ h with h1 | h2
      · exact Or.inl h1
      · right
        rw [h2]
        unfold jsStartsWith
        have : ("detail:" ++ b.id).data = "detail:".data ++ b.id.data := by
          simp [String.data_append]
        rw [this]
        exact listPrefixOf_append _ _

/-- Helper: keys after the enrichment fold are old keys or detail-prefixed. -/
theorem enrichFold_keys (outcome : Book → Option (Book × Bool)) :
    ∀ (books : List Book) (acc0 : List Book) (cache0 : List (String × Book)) (k : String),
    ((books.foldl (fun acc b =>
        let r := enrichStep outcome acc.2 b
        (acc.1 ++ [r.1], r.2)) (acc0, cache0)).2.any (fun p => p.1 == k) = true) →
    cache0.any (fun p => p.1 == k) = true ∨ jsStartsWith k "detail:" = true := by
  intro books
  induction books with
  | nil => intro acc0 cache0 k h; exact Or.inl h
  | cons b bs ih =>
    intro acc0 cache0 k h
    rw [List.foldl_cons] at h
    rcases ih _ _ _ h with h1 | h2
    · exact enrichStep_keys outcome cache0 b k h1
    · exact Or.inr h2

/-- C10: for a valid query with result caching enabled, a cache hit on the
derived search key makes searchBooks return an empty result (books = [],
totalFound = 0) regardless of what the cache stores, leaving the cache
unchanged; and searchBooks never writes any entry under a search key — the
cache-store step is a no-op, and the only writes (from the optional detail
enrichment) use "detail:"-prefixed keys. -/
theorem C10_search_cache :
    (∀ (cache : List (String × Book)) (query : String) (opts : SearchOptionsM)
        (fetchParse : Option (List Book × Nat)) (outcome : Book → Option (Book × Bool)),
      validateSearchQuery query = none →
      opts.cacheResults = true →
      cache.any (fun p =>
        p.1 == buildSearchCacheKey query opts.maxResults opts.enableDetailFetch) = true →
      searchBooksM cache query opts fetchParse outcome =
        .ok ({ books := [], totalFound := 0, query := query, hasMore := false }, cache)) ∧
    (∀ (cache : List (String × Book)) (query : String) (opts : SearchOptionsM)
        (fetchParse : Option (List Book × Nat)) (outcome : Book → Option (Book × Bool))
        (r : SearchResultM) (cache2 : List (String × Book)),
      searchBooksM cache query opts fetchParse outcome = .ok (r, cache2) →
      ∀ k, cache2.any (fun p => p.1 == k) = true →
        cache.any (fun p => p.1 == k) = true ∨ jsStartsWith k "detail:" = true) := by
  constructor
  · intro cache query opts fetchParse outcome hval hcr hhit
    unfold searchBooksM
    rw [hval]
    dsimp only
    rw [hcr]
    simp only [Bool.true_and, hhit]
    rfl
  · intro cache query opts fetchParse outcome r cache2 h k hk
    unfold searchBooksM at h
    rcases hval : validateSearchQuery query with _ | e <;> rw [hval] at h
    · dsimp only at h
      split at h
      · cases h
        exact Or.inl hk
      · rcases hfp : fetchParse with _ | ⟨books, total⟩ <;> rw [hfp] at h
        · cases h
        · dsimp only at h
          split at h <;> rename_i hdf
          · unfold cacheSearchResultStep at h
            cases h
            exact enrichFold_keys outcome books [] cache k (by
              simpa [enrichBooksFold] using hk)
          · unfold cacheSearchResultStep at h
            cases h
            exact Or.inl hk
    · cases h

end Kyobo

namespace Kyobo

open Kyobo.Model Kyobo.Service

/-- Witness for C10: a concrete cache holding the derived key for the query
"해리포터" with the default options makes searchBooks return the empty
result and leave the cache unchanged. -/
theorem C10_search_cache_witness :
    searchBooksM
      [(buildSearchCacheKey "해리포터" 20 false,
        { id := "1", title := "해리포터", authors := [], publisher := "" })]
      "해리포터" {} none (fun _ => none) =
      .ok ({ books := [], totalFound := 0, query := "해리포터", hasMore := false },
        [(buildSearchCacheKey "해리포터" 20 false,
          { id := "1", title := "해리포터", authors := [], publisher := "" })]) :=
  C10_search_cache.1 _ "해리포터" {} none (fun _ => none) (by decide) rfl (by decide)

end Kyobo

namespace Kyobo

open Kyobo.Model Kyobo.Search Kyobo.Scenario

/-- Helper: every book a batch adds comes from parsing one of its items. -/
theorem parseBatchGo_mem (tempId : String) (remaining : Nat) :
    ∀ (items : List ItemElem) (acc : List Book) (b : Book),
    b ∈ parseBatchGo tempId remaining items acc →
    b ∈ acc ∨ ∃ it, it ∈ items ∧ parseItem tempId it = some b := by
  intro items
  induction items with
  | nil => intro acc b h; exact Or.inl h
  | cons it rest ih =>
    intro acc b h
    rw [parseBatchGo] at h
    split at h
    · exact Or.inl h
    · rcases hp : parseItem tempId it with _ | b2 <;> rw [hp] at h
      · rcases ih acc b h with h1 | ⟨it2, hm, hp2⟩
        · exact Or.inl h1
        · exact Or.inr ⟨it2, List.mem_cons_of_mem _ hm, hp2⟩
      · rcases ih (acc ++ [b2]) b h with h1 | ⟨it2, hm, hp2⟩
        · rcases List.mem_append.mp h1 with h2 | h2
          · exact Or.inl h2
          · refine Or.inr ⟨it, List.mem_cons_self _ _, ?_⟩
            rw [hp]
            simpa using (List.mem_singleton.mp h2) ▸ rfl
        · exact Or.inr ⟨it2, List.mem_cons_of_mem _ hm, hp2⟩

/-- Helper: every book the batched walk adds comes from parsing one of the
candidate items. -/
theorem parseItemsGo_mem (tempId : String) (maxResults : Nat) :
    ∀ (fuel : Nat) (items : List ItemElem) (books : List Book) (b : Book),
    b ∈ parseItemsGo tempId maxResults fuel items books →
    b ∈ books ∨ ∃ it, it ∈ items ∧ parseItem tempId it = some b := by
  intro fuel
  induction fuel with
  | zero =>
    intro items books b h
    cases items with
    | nil => exact Or.inl h
    | cons it rest => exact Or.inl h
  | succ f ih =>
    intro items books b h
    cases items with
    | nil => exact Or.inl h
    | cons it rest =>
      rw [parseItemsGo] at h
      split at h
      · exact Or.inl h
      · rcases ih _ _ b h with h1 | ⟨it2, hm, hp⟩
        · rcases List.mem_append.mp h1 with h2 | h2
          · exact Or.inl h2
          · rcases parseBatchGo_mem tempId _ _ _ b h2 with h3 | ⟨it3, hm3, hp3⟩
            · simp at h3
            · exact Or.inr ⟨it3, List.take_subset _ _ hm3, hp3⟩
        · exact Or.inr ⟨it2, List.drop_subset _ _ hm, hp⟩

/-- C2 counterexample: on a page where the structural selectors match
nothing, the link-based fallback surfaces a container whose text contains
the package keywords 세트/전집/시리즈, and parseBooks returns a Book built
from it — package items are not excluded on the fallback path. -/
theorem C2_counterexample :
    c2Doc.structuralItems.length = 0 ∧
    isPackageProduct (itemText c2Container) = true ∧
    parseItem "temp_1" c2Container = some c2Book ∧
    parseBooks c2Doc "temp_1" 50 = .ok [c2Book] := by
  refine ⟨by decide, by decide, by decide, rfl⟩

/-- C2 (amended): when the structural selector cascade finds candidates,
every Book of parseBooks comes from an item that passed filterValidItems, so
its text contains none of the package keywords 패키지/세트/전집/시리즈/묶음;
the link-based ancestor-walking fallback (used only when the structural
selectors match nothing) performs no package filtering, and a package item
can yield a Book there. -/
theorem C2_package_exclusion_structural (doc : SearchDocView) (tempId : String)
    (maxResults : Nat) (books : List Book)
    (hs : 0 < doc.structuralItems.length)
    (hp : parseBooks doc tempId maxResults = .ok books) :
    ∀ b ∈ books, ∃ item, item ∈ filterValidItems doc.structuralItems ∧
      parseItem tempId item = some b ∧ isPackageProduct (itemText item) = false := by
  intro b hb
  rw [parseBooks, findResultItems, if_pos hs] at hp
  split at hp
  · cases hp
  · cases hp
    rcases parseItemsGo_mem tempId maxResults _ _ _ b hb with h1 | ⟨it, hm, hpi⟩
    · simp at h1
    · refine ⟨it, hm, hpi, ?_⟩
      have := List.mem_filter.mp hm
      have hpred := this.2
      simp only [Bool.and_eq_true, Bool.not_eq_true'] at hpred
      exact hpred.2

/-- Witness for C2 on a concrete structural-path document with one valid
non-package item. -/
theorem C2_package_exclusion_structural_witness :
    ∃ item, item ∈ filterValidItems c2bDoc.structuralItems ∧
      parseItem "temp_2" item = some c2bBook ∧
      isPackageProduct (itemText item) = false :=
  C2_package_exclusion_structural c2bDoc "temp_2" 50 [c2bBook]
    (by decide) rfl c2bBook (by decide)

end Kyobo

namespace Kyobo

open Kyobo.Cache Kyobo.Scenario

/-- Helper: the running value of the eviction-selection fold is a lower bound
of the initial value and of every entry's score. -/
theorem selectFold_le {α : Type} (now : ℚ) :
    ∀ (m : CacheMap α) (acc : String × ℚ),
    (m.foldl (fun acc kv =>
      if evictionScore now kv.2 < acc.2 then (kv.1, evictionScore now kv.2) else acc) acc).2 ≤ acc.2 ∧
    ∀ p ∈ m, (m.foldl (fun acc kv =>
      if evictionScore now kv.2 < acc.2 then (kv.1, evictionScore now kv.2) else acc) acc).2 ≤
        evictionScore now p.2 := by
  intro m
  induction m with
  | nil => intro acc; exact ⟨le_rfl, by simp⟩
  | cons q m ih =>
    intro acc
    rw [List.foldl_cons]
    by_cases hq : evictionScore now q.2 < acc.2
    · rw [if_pos hq]
      obtain ⟨h1, h2⟩ := ih (q.1, evictionScore now q.2)
      refine ⟨le_trans h1 (le_of_lt hq), ?_⟩
      intro p hp
      rcases List.mem_cons.mp hp with hp1 | hp2
      · rw [hp1]; exact h1
      · exact h2 p hp2
    · rw [if_neg hq]
      obtain ⟨h1, h2⟩ := ih acc
      refine ⟨h1, ?_⟩
      intro p hp
      rcases List.mem_cons.mp hp with hp1 | hp2
      · rw [hp1]; exact le_trans h1 (le_of_not_lt hq)
      · exact h2 p hp2

/-- Helper: the eviction-selection fold either keeps its initial pair (when
no entry scores below it) or returns some entry's key and score. -/
theorem selectFold_shape {α : Type} (now : ℚ) :
    ∀ (m : CacheMap α) (acc : String × ℚ),
    (m.foldl (fun acc kv =>
      if evictionScore now kv.2 < acc.2 then (kv.1, evictionScore now kv.2) else acc) acc = acc ∧
      ∀ p ∈ m, acc.2 ≤ evictionScore now p.2) ∨
    ∃ p ∈ m, (m.foldl (fun acc kv =>
      if evictionScore now kv.2 < acc.2 then (kv.1, evictionScore now kv.2) else acc) acc) =
        (p.1, evictionScore now p.2) := by
  intro m
  induction m with
  | nil => intro acc; exact Or.inl ⟨rfl, by simp⟩
  | cons q m ih =>
    intro acc
    rw [List.foldl_cons]
    by_cases hq : evictionScore now q.2 < acc.2
    · rw [if_pos hq]
      rcases ih (q.1, evictionScore now q.2) with ⟨h1, _⟩ | ⟨p, hp, h1⟩
      · exact Or.inr ⟨q, List.mem_cons_self _ _, h1⟩
      · exact Or.inr ⟨p, List.mem_cons_of_mem _ hp, h1⟩
    · rw [if_neg hq]
      rcases ih acc with ⟨h1, h2⟩ | ⟨p, hp, h1⟩
      · refine Or.inl ⟨h1, ?_⟩
        intro p hp
        rcases List.mem_cons.mp hp with hp1 | hp2
        · rw [hp1]; exact le_of_not_lt hq
        · exact h2 p hp2
      · exact Or.inr ⟨p, List.mem_cons_of_mem _ hp, h1⟩

/-- Helper: a well-formed entry (accessed at least once, at a past time)
always scores strictly below `now`, so the selection loop always leaves its
`Date.now()` initialisation. -/
theorem evictionScore_lt_now {α : Type} (now : ℚ) (e : CacheEntryM α)
    (hac : 1 ≤ e.accessCount) (hla0 : 0 ≤ e.lastAccess) (hla : e.lastAccess ≤ now) :
    evictionScore now e < now := by
  unfold evictionScore
  have hc : (1 : ℚ) ≤ (e.accessCount : ℚ) := by exact_mod_cast hac
  nlinarith

/-- C8 counterexample: with capacity 1 and the single entry stored under the
empty-string key, inserting a fresh key evicts nothing — the falsy-string
guard `if (lruKey)` skips the deletion — and the cache grows to 2 entries,
so "evicts exactly one existing entry" fails. -/
theorem C8_counterexample :
    cacheSet 1 5 [("", c8Entry)] "a" (0 : Nat) =
      [("", c8Entry), ("a", { value := 0, timestamp := 5, lastAccess := 5, accessCount := 1 })] ∧
    (cacheSet 1 5 [("", c8Entry)] "a" (0 : Nat)).length = 2 := by
  have hlt : evictionScore 5 c8Entry < ((""), (5 : ℚ)).2 := by
    norm_num [evictionScore, c8Entry]
  have hmain : cacheSet 1 5 [("", c8Entry)] "a" (0 : Nat) =
      [("", c8Entry), ("a", { value := 0, timestamp := 5, lastAccess := 5, accessCount := 1 })] := by
    unfold cacheSet
    rw [if_neg (by decide)]
    dsimp only
    rw [if_pos (by decide)]
    unfold evictLeastRecentlyUsed selectEvictionKey
    rw [List.foldl_cons, if_pos hlt, List.foldl_nil]
    rw [if_pos rfl]
    rfl
  exact ⟨hmain, by rw [hmain]; rfl⟩

/-- C8 (amended): inserting a new key into a full cache whose entries are
well-formed (accessed at least once, at past times) and stored under
non-empty pairwise-distinct keys evicts exactly one entry — one minimizing
the composite score 0.7×(now−lastAccess) − 0.3×accessCount×1000 — and then
appends the new entry; when the minimizing entry's key is the empty string
the falsy-key guard skips the eviction and the size bound is broken. -/
theorem C8_eviction {α : Type} (maxSize : Nat) (now : ℚ) (m : CacheMap α)
    (k : String) (v : α)
    (hk : mapHas m k = false) (hfull : maxSize ≤ m.length) (hmax : 1 ≤ maxSize)
    (hwf : ∀ p ∈ m, p.1 ≠ "" ∧ 1 ≤ p.2.accessCount ∧ 0 ≤ p.2.lastAccess ∧
      p.2.lastAccess ≤ now) :
    ∃ k₀ e₀, (k₀, e₀) ∈ m ∧
      (∀ p ∈ m, evictionScore now e₀ ≤ evictionScore now p.2) ∧
      cacheSet maxSize now m k v =
        m.eraseP (fun p => p.1 == k₀) ++
          [(k, { value := v, timestamp := now, lastAccess := now, accessCount := 1 })] ∧
      (cacheSet maxSize now m k v).length = m.length := by
  have hlen : 0 < m.length := lt_of_lt_of_le hmax hfull
  obtain ⟨p0, hp0⟩ := List.exists_mem_of_length_pos hlen
  have hsel := selectFold_shape now m ("", now)
  rcases hsel with ⟨heq, hge⟩ | ⟨p, hp, heq⟩
  · exfalso
    have h1 := hge p0 hp0
    obtain ⟨_, hac, hla0, hla⟩ := hwf p0 hp0
    exact absurd h1 (not_le.mpr (evictionScore_lt_now now p0.2 hac hla0 hla))
  · obtain ⟨hne, _, _, _⟩ := hwf p hp
    have hmin := (selectFold_le now m ("", now)).2
    refine ⟨p.1, p.2, by simpa using hp, ?_, ?_, ?_⟩
    · intro q hq
      have := hmin q hq
      rw [heq] at this
      exact this
    · unfold cacheSet
      rw [if_neg (by simp [hk]), if_pos hfull]
      unfold evictLeastRecentlyUsed selectEvictionKey
      rw [heq]
      dsimp only
      rw [if_neg hne]
    · unfold cacheSet
      rw [if_neg (by simp [hk]), if_pos hfull]
      unfold evictLeastRecentlyUsed selectEvictionKey
      rw [heq]
      dsimp only
      rw [if_neg hne]
      rw [List.length_append]
      have herase : (m.eraseP (fun q => q.1 == p.1)).length + 1 = m.length :=
        List.length_eraseP_add_one hp (by simp)
      simp only [List.length_cons, List.length_nil]
      omega

/-- Witness for C8 at a concrete full cache of capacity 2 with two
well-formed entries. -/
theorem C8_eviction_witness :
    ∃ k₀ e₀, (k₀, e₀) ∈ c8GoodMap ∧
      (∀ p ∈ c8GoodMap, evictionScore 200000 e₀ ≤ evictionScore 200000 p.2) ∧
      cacheSet 2 200000 c8GoodMap "new" (3 : Nat) =
        c8GoodMap.eraseP (fun p => p.1 == k₀) ++
          [("new", { value := 3, timestamp := 200000, lastAccess := 200000, accessCount := 1 })] ∧
      (cacheSet 2 200000 c8GoodMap "new" (3 : Nat)).length = c8GoodMap.length :=
  C8_eviction 2 200000 c8GoodMap "new" 3 (by decide) (by decide) (by decide)
    (by
      intro p hp
      rcases List.mem_cons.mp hp with h | h
      · rw [h]
        refine ⟨by decide, by norm_num [c8OldEntry], by norm_num [c8OldEntry],
          by norm_num [c8OldEntry]⟩
      · rcases List.mem_cons.mp h with h2 | h2
        · rw [h2]
          refine ⟨by decide, by norm_num [c8HotEntry], by norm_num [c8HotEntry],
            by norm_num [c8HotEntry]⟩
        · simp at h2)

end Kyobo
